import Mathlib

/-
Verification of the backport orchestration engine implemented in
.github/scripts/auto-backport-jira.py.

The Python source is shallowly embedded: pure helpers become Lean functions,
GitHub/Jira/git side effects become explicit state (label lists, oracle
functions describing the remote state), and Python exceptions become Option
results.  Strings are modelled with Lean String, Python integers with Int,
and Python list iteration with structural recursion in the same order.
-/

/-! ## Basic string helpers (models of Python primitives) -/

/-- Model of Python list/str prefix test: chars_start_with pat l is true when
pat is a prefix of l. -/
def chars_start_with : List Char → List Char → Bool
  | [], _ => true
  | _ :: _, [] => false
  | a :: as, b :: bs => a == b && chars_start_with as bs

/-- Model of Python substring containment over char lists: small occurs
contiguously inside big. -/
def char_list_has_sub : List Char → List Char → Bool
  | [], small => chars_start_with small []
  | big@(_ :: bs), small => chars_start_with small big || char_list_has_sub bs small

/-- Model of the Python expression small in big for strings. -/
def str_in (small big : String) : Bool :=
  char_list_has_sub big.toList small.toList

/-- Model of Python str.startswith. -/
def py_starts_with (s pre : String) : Bool :=
  chars_start_with pre.toList s.toList

/-- Model of Python str.split(sep) for a one-character separator, keeping
empty parts exactly as Python does. -/
def split_on_char (sep : Char) : List Char → List (List Char)
  | [] => [[]]
  | c :: cs =>
    let rest := split_on_char sep cs
    if c = sep then [] :: rest
    else
      match rest with
      | r :: rs => (c :: r) :: rs
      | [] => [[c]]

/-- Model of Python str.strip(): drops whitespace from both ends. -/
def py_strip (s : String) : String :=
  (((s.toList.dropWhile Char.isWhitespace).reverse.dropWhile Char.isWhitespace).reverse).asString

/-- Numeric value of a list of decimal digit characters. -/
def digits_to_nat (l : List Char) : Nat :=
  l.foldl (fun n c => 10 * n + (c.toNat - 48)) 0

/-- Model of Python int() applied to a plain decimal string with an optional
sign (the source only ever feeds it dot-separated version components).
Returns none where Python raises ValueError. -/
def py_int : List Char → Option Int
  | [] => none
  | '-' :: rest =>
    if !rest.isEmpty && rest.all Char.isDigit then some (-(digits_to_nat rest : Int)) else none
  | '+' :: rest =>
    if !rest.isEmpty && rest.all Char.isDigit then some ((digits_to_nat rest : Int)) else none
  | l =>
    if l.all Char.isDigit then some ((digits_to_nat l : Int)) else none

/-- Fuel-bounded worker for py_replace; the fuel is the input length, which
is enough because every step consumes at least one character. -/
def py_replace_aux (pat rep : List Char) : Nat → List Char → List Char
  | _, [] => []
  | 0, l => l
  | fuel + 1, c :: cs =>
    if chars_start_with pat (c :: cs) then
      rep ++ py_replace_aux pat rep fuel ((c :: cs).drop pat.length)
    else
      c :: py_replace_aux pat rep fuel cs

/-- Model of Python str.replace: replaces every non-overlapping occurrence of
pat by rep, scanning left to right. -/
def py_replace (s pat rep : String) : String :=
  (py_replace_aux pat.toList rep.toList s.toList.length s.toList).asString

/-- Model of Python str.splitlines()[0] as used on commit messages (the
source only inspects the first line). -/
def first_line (s : String) : String :=
  ((split_on_char '\n' s.toList).headD []).asString

/-- True when the last character of s is a decimal digit.  Every version
string accepted by the backport/(manager-)?\d+\.\d+$ label pattern in main()
has this property; several theorems take it as a hypothesis. -/
def ends_with_digit (s : String) : Bool :=
  match s.toList.getLast? with
  | some c => c.isDigit
  | none => false

/-! ## Version parsing and sorting (parse_version / sort_versions_descending) -/

/-- Source: is_manager_version.  Check if the version is a manager version
(prefixed with manager-). -/
def is_manager_version (version : String) : Bool :=
  py_starts_with version "manager-"

/-- Shared worker of parse_version: splits the cleaned version string on
dots and converts the first two components, pairing them with the given
kind marker. -/
def parse_version_core (clean : String) (pre : Nat) : Option (Nat × Int × Int) :=
  match split_on_char '.' clean.toList with
  | p0 :: p1 :: _ =>
    match py_int p0, py_int p1 with
    | some a, some b => some (pre, a, b)
    | _, _ => none
  | _ => none

/-- Source: parse_version.  Parses a version string like 2025.4 or
manager-3.4 into a sort key; manager versions get key component 0 and
regular versions 1, then the first two dot-separated components as integers.
Returns none where Python raises (ValueError from int(), or IndexError when
there is no second component). -/
def parse_version (version_str : String) : Option (Nat × Int × Int) :=
  parse_version_core
    (if py_starts_with version_str "manager-" then py_replace version_str "manager-" ""
     else version_str)
    (if is_manager_version version_str then 0 else 1)

/-- Lexicographic comparison of parse_version keys, mirroring Python tuple
comparison. -/
def keyLe (a b : Nat × Int × Int) : Bool :=
  decide (a.1 < b.1) ||
    (decide (a.1 = b.1) &&
      (decide (a.2.1 < b.2.1) || (decide (a.2.1 = b.2.1) && decide (a.2.2 ≤ b.2.2))))

/-- Order used by the descending sort: the left element has the larger (or
equal) key.  The String component is carried along untouched. -/
def versionKeyGe (a b : (Nat × Int × Int) × String) : Prop :=
  keyLe b.1 a.1 = true

instance : DecidableRel versionKeyGe :=
  fun a b => inferInstanceAs (Decidable (keyLe b.1 a.1 = true))

/-- Evaluation of an Option-producing function over a list, failing when any
element fails; models a Python loop or comprehension that may raise. -/
def map_option (f : α → Option β) : List α → Option (List β)
  | [] => some []
  | a :: as => (f a).bind fun b => (map_option f as).map fun bs => b :: bs

/-- Source: sort_versions_descending.  Sort versions in descending order
(highest first); regular versions come before manager versions.  Python
raises out of sorted() when parse_version raises on any element, modelled by
returning none. -/
def sort_versions_descending (versions : List String) : Option (List String) :=
  match map_option (fun v => (parse_version v).map (fun k => (k, v))) versions with
  | none => none
  | some keyed => some ((keyed.insertionSort versionKeyGe).map (fun p => p.2))

/-- Source: get_branch_name (with get_branch_prefix inlined).  Manager
versions map to themselves; scylladb/scylladb uses branch-X.Y and every
other repository next-X.Y. -/
def get_branch_name (repo_name version : String) : String :=
  if is_manager_version version then version
  else if repo_name = "scylladb/scylladb" then "branch-" ++ version
  else "next-" ++ version

/-! ## Labels -/

/-- Adding a GitHub label: labels form a set, so adding a present label is a
no-op. -/
def add_label (labels : List String) (l : String) : List String :=
  if l ∈ labels then labels else labels ++ [l]

/-- Removing a GitHub label (all occurrences, matching set semantics). -/
def remove_label (labels : List String) (l : String) : List String :=
  labels.filter (fun x => x ≠ l)

/-- The backport/<version> label. -/
def requested_label (version : String) : String :=
  "backport/" ++ version

/-- The backport/<version>-pending label. -/
def pending_label (version : String) : String :=
  requested_label version ++ "-pending"

/-- The backport/<version>-done label. -/
def done_label (version : String) : String :=
  requested_label version ++ "-done"

/-- Source: replace_backport_label_with_done.  Replaces backport/X.Y or
backport/X.Y-pending with backport/X.Y-done on a PR; succeeds as a no-op
when the done label is already present, and reports failure (a warning in
the source) when none of the three labels exists.  Returns the success flag
and the updated label set. -/
def replace_backport_label_with_done (labels : List String) (version : String) :
    Bool × List String :=
  if requested_label version ∈ labels then
    (true, add_label (remove_label labels (requested_label version)) (done_label version))
  else if pending_label version ∈ labels then
    (true, add_label (remove_label labels (pending_label version)) (done_label version))
  else if done_label version ∈ labels then
    (true, labels)
  else
    (false, labels)

/-! ## Commits and the idempotency check -/

/-- A commit as the source observes it: its SHA and its message. -/
structure Commit where
  sha : String
  message : String
deriving DecidableEq

/-- Source: is_commit_in_branch.  Checks whether a commit (or its
cherry-pick) is already in the target branch by scanning the first 100
commits of the branch history and comparing commit titles (substring match
in either direction) or the exact SHA. -/
def is_commit_in_branch (commit : Commit) (branch_commits : List Commit) : Bool :=
  let commit_title := first_line commit.message
  (branch_commits.take 100).any fun branch_commit =>
    let branch_commit_title := first_line branch_commit.message
    str_in commit_title branch_commit_title ||
      str_in branch_commit_title commit_title ||
        branch_commit.sha == commit.sha

/-! ## Milestone resolution (find_latest_patch_for_branch et al.) -/

/-- True when the tail of a tag matches the optional regex suffix
(?:-candidate-[\w.-]+)?$ appearing in both tag patterns. -/
def candidate_suffix_ok (l : List Char) : Bool :=
  l.isEmpty ||
    (chars_start_with "-candidate-".toList l &&
      (let w := l.drop 11
       !w.isEmpty && w.all fun c => c.isAlphanum || c = '_' || c = '.' || c = '-'))

/-- Matcher for the release tag regex scylla-<version>.(\d+)(-candidate-...)?
used by find_latest_patch_for_branch; returns the captured patch number. -/
def release_tag_patch (version tag : String) : Option Nat :=
  let pre := ("scylla-" ++ version ++ ".").toList
  let t := tag.toList
  if chars_start_with pre t then
    let rest := t.drop pre.length
    let ds := rest.takeWhile Char.isDigit
    let r := rest.dropWhile Char.isDigit
    if !ds.isEmpty && candidate_suffix_ok r then some (digits_to_nat ds) else none
  else none

/-- Matcher for the rc tag regex scylla-<version>.(\d+)-rc\d+(-candidate-...)?
used by find_latest_patch_for_branch; returns the captured patch number. -/
def rc_tag_patch (version tag : String) : Option Nat :=
  let pre := ("scylla-" ++ version ++ ".").toList
  let t := tag.toList
  if chars_start_with pre t then
    let rest := t.drop pre.length
    let ds := rest.takeWhile Char.isDigit
    let r := rest.dropWhile Char.isDigit
    if !ds.isEmpty && chars_start_with "-rc".toList r then
      let r2 := r.drop 3
      let rs := r2.takeWhile Char.isDigit
      if !rs.isEmpty && candidate_suffix_ok (r2.dropWhile Char.isDigit) then
        some (digits_to_nat ds)
      else none
    else none
  else none

/-- One iteration of the tag loop in find_latest_patch_for_branch; the state
is (latest_patch, has_rc_tags).  A release tag raises latest_patch to its
patch number; an rc tag only records patch - 1 when nothing is recorded yet
(the source comment: track rc patch but do not override a real release). -/
def latest_patch_step (version : String) (st : Option Int × Bool) (tag : String) :
    Option Int × Bool :=
  match release_tag_patch version tag with
  | some p =>
    match st.1 with
    | none => (some (p : Int), st.2)
    | some l => (if (p : Int) > l then some (p : Int) else some l, st.2)
  | none =>
    match rc_tag_patch version tag with
    | some p =>
      (match st.1 with
       | none => some ((p : Int) - 1)
       | some l => some l, true)
    | none => st

/-- Specification-side helper: the maximum of an Int accumulator and a Nat
patch number, as the release branch of latest_patch_step computes it. -/
def int_max_step (x : Int) (q : Nat) : Int :=
  if (q : Int) > x then (q : Int) else x

/-- Source: find_latest_patch_for_branch.  Scans the repository tags for
release and rc tags of the given version and returns the latest patch
number, or none when no tag matched (the rc-only fallback to -1 in the
source is preserved although no state can reach it). -/
def find_latest_patch_for_branch (version : String) (tags : List String) : Option Int :=
  let st := tags.foldl (latest_patch_step version) (none, false)
  match st.1 with
  | none => if st.2 then some (-1) else none
  | some l => some l

/-- Source: resolve_backport_milestone_title.  Empty and manager versions
resolve to none; otherwise the milestone is <version>.<latest_patch + 1>,
or none when no tag matched. -/
def resolve_backport_milestone_title (tags : List String) (version : String) :
    Option String :=
  if version = "" || is_manager_version version then none
  else
    match find_latest_patch_for_branch version tags with
    | none => none
    | some l => some (version ++ "." ++ toString (l + 1))

/-- Source: set_pr_milestone.  Returns (assigned, new milestone of the PR);
a missing title reports false and leaves the PR untouched, a matching
current milestone is a successful no-op, and otherwise find_or_create is
modelled by the create_ok oracle. -/
def set_pr_milestone (current : Option String) (create_ok : Bool)
    (title : Option String) : Bool × Option String :=
  match title with
  | none => (false, current)
  | some t =>
    if current = some t then (true, current)
    else if create_ok then (true, some t)
    else (false, current)

/-! ## Jira sub-issues (create_jira_sub_issue and helpers) -/

/-- The two fields of a Jira issue the backport logic inspects: whether its
issue type is a sub-task, and its parent key when present. -/
structure JiraIssue where
  subtask : Bool
  parent : Option String
deriving DecidableEq

/-- The Jira state visible to the script: issue lookup (none models a failed
GET), the existing sub-issue search of find_existing_sub_issue, and the
creation call (none models a failed POST). -/
structure JiraStore where
  issues : String → Option JiraIssue
  existing_sub_issue : String → String → Option String
  create_result : String → String → Option String

/-- Source: get_parent_key_if_subtask.  The parent issue key when the given
issue is a sub-task, none otherwise. -/
def get_parent_key_if_subtask (issue : JiraIssue) : Option String :=
  if issue.subtask then issue.parent else none

/-- Outcome of create_jira_sub_issue: the fetch of the parent failed, an
existing sub-issue was found under the effective parent, a new sub-task was
created under the effective parent with the given description, or the
creation POST failed. -/
inductive SubIssueOutcome where
  | fetchFailed
  | found (under_parent key : String)
  | created (under_parent summary desc : String) (was_subtask_redirect : Bool)
deriving DecidableEq

/-- Source: create_jira_sub_issue, exposing where and how the sub-task ends
up.  If the parent issue is itself a sub-task, the new sub-task is created
under the parent of that sub-task (the grandparent) and the description
records the substitution. -/
def create_jira_sub_issue_outcome (store : JiraStore)
    (parent_key version original_title : String) : Option SubIssueOutcome :=
  match store.issues parent_key with
  | none => some .fetchFailed
  | some original_issue =>
    let gp := get_parent_key_if_subtask original_issue
    let actual_parent_key := gp.getD parent_key
    let original_was_subtask := gp.isSome
    match store.existing_sub_issue actual_parent_key version with
    | some existing_key => some (.found actual_parent_key existing_key)
    | none =>
      let sub_issue_title := "[Backport " ++ version ++ "] - " ++ original_title
      let description :=
        if original_was_subtask then
          "Backporting of " ++ parent_key ++ " (sub-task of " ++ actual_parent_key ++
            ") to version " ++ version
        else
          "Backporting of " ++ parent_key ++ " to version " ++ version
      match store.create_result actual_parent_key version with
      | some _ => some (.created actual_parent_key sub_issue_title description original_was_subtask)
      | none => none

/-- Source: create_jira_sub_issue as its callers see it: the key of the
found or created sub-issue, or none on any failure. -/
def create_jira_sub_issue (store : JiraStore)
    (parent_key version _original_title : String) : Option String :=
  match store.issues parent_key with
  | none => none
  | some original_issue =>
    let gp := get_parent_key_if_subtask original_issue
    let actual_parent_key := gp.getD parent_key
    match store.existing_sub_issue actual_parent_key version with
    | some existing_key => some existing_key
    | none => store.create_result actual_parent_key version

/-! ## Title stripping (extract_original_title) -/

/-- Matcher for one leading occurrence of the regex
\[Backport (manager-)?\d+\.\d+\]\s* ; returns the remainder after the
prefix and the trailing whitespace. -/
def parse_backport_tag (l : List Char) : Option (List Char) :=
  if chars_start_with "[Backport ".toList l then
    let r0 := l.drop 10
    let r1 := if chars_start_with "manager-".toList r0 then r0.drop 8 else r0
    let ds1 := r1.takeWhile Char.isDigit
    let r2 := r1.dropWhile Char.isDigit
    if ds1.isEmpty then none
    else
      match r2 with
      | '.' :: r3 =>
        let ds2 := r3.takeWhile Char.isDigit
        let r4 := r3.dropWhile Char.isDigit
        if ds2.isEmpty then none
        else
          match r4 with
          | ']' :: r5 => some (r5.dropWhile Char.isWhitespace)
          | _ => none
      | _ => none
  else none

/-- Fuel-bounded loop stripping stacked backport tags; the fuel is the title
length, enough because each successful match consumes characters. -/
def strip_backport_tags : Nat → List Char → List Char
  | 0, l => l
  | fuel + 1, l =>
    match parse_backport_tag l with
    | some rest => strip_backport_tags fuel rest
    | none => l

/-- Source: extract_original_title.  Strips every stacked [Backport X.Y] or
[Backport manager-X.Y] title tag, returning the stripped remainder (or the
input title when the remainder is empty). -/
def extract_original_title (pr_title : String) : String :=
  let res := (strip_backport_tags pr_title.toList.length pr_title.toList).asString
  if res = "" then pr_title else py_strip res

/-! ## Tracking pull requests (create_pull_request / backport) -/

/-- Source constant JIRA_FAILURE_LABEL. -/
def JIRA_FAILURE_LABEL : String := "jira-sub-issue-creation-failed"

/-- Source set skip_force_on_cloud_repos in create_pull_request. -/
def skip_force_on_cloud_repos : List String := ["scylladb/scylla-pkg"]

/-- The fields of a created backport tracking PR that the orchestration
logic decides: head branch, base branch, title, draft flag, labels added at
creation, and the assigned milestone. -/
structure TrackingPR where
  branch_name : String
  target_branch : String
  title : String
  draft : Bool
  labels : List String
  milestone : Option String
deriving DecidableEq

/-- The repository-level inputs of create_pull_request that do not vary per
call: the repository name, its tags, and whether milestone creation
succeeds. -/
structure BackportEnv where
  repo_name : String
  tags : List String
  milestone_create_ok : Bool

/-- Source: create_pull_request.  Builds the tracking PR: copies the highest
of P0/P1 from the parent PR (with force_on_cloud unless the repository is
excluded; the source iterates a two-element Python set, modelled here in
P0-then-P1 order), adds conflicts when draft, the Jira failure label when
sub-issue creation failed, and the remaining backport labels for chain
continuation; finally resolves and sets the milestone for the backport
version. -/
def create_pull_request (env : BackportEnv) (new_branch_name base_branch_name : String)
    (parent_pr_labels : List String) (backport_pr_title : String)
    (is_draft jira_failed : Bool) (remaining_backport_labels : List String)
    (backport_version : String) : TrackingPR :=
  let priority_labels :=
    if "P0" ∈ parent_pr_labels then
      if env.repo_name ∈ skip_force_on_cloud_repos then ["P0"] else ["P0", "force_on_cloud"]
    else if "P1" ∈ parent_pr_labels then
      if env.repo_name ∈ skip_force_on_cloud_repos then ["P1"] else ["P1", "force_on_cloud"]
    else []
  let labels_to_add :=
    priority_labels ++ (if is_draft then ["conflicts"] else []) ++
      (if jira_failed then [JIRA_FAILURE_LABEL] else []) ++ remaining_backport_labels
  let milestone :=
    if backport_version ≠ "" then
      (set_pr_milestone none env.milestone_create_ok
        (resolve_backport_milestone_title env.tags backport_version)).2
    else none
  { branch_name := new_branch_name
    target_branch := base_branch_name
    title := backport_pr_title
    draft := is_draft
    labels := labels_to_add
    milestone := milestone }

/-- Source: backport.  If any commit is already in the target branch the
label of the version is marked done on the original PR and no tracking PR is
created; otherwise the clone/cherry-pick/push sequence runs (git failure and
cherry-pick conflicts are oracles standing for the subprocess results) and
the tracking PR is created.  Returns the created PR (none on skip or git
failure) and the resulting labels of the original PR. -/
def backport (env : BackportEnv) (pr_number : Nat) (pr_title : String)
    (parent_pr_labels : List String) (version : String) (commits : List Commit)
    (backport_base_branch : String) (branch_commits : List Commit)
    (git_fail cherry_pick_conflict jira_failed : Bool)
    (remaining_backport_labels : List String) (original_pr_labels : List String) :
    Option TrackingPR × List String :=
  if commits.any (fun commit => is_commit_in_branch commit branch_commits) then
    (none, (replace_backport_label_with_done original_pr_labels version).2)
  else if git_fail then
    (none, original_pr_labels)
  else
    let new_branch_name := "backport/" ++ toString pr_number ++ "/to-" ++ version
    let backport_pr_title := "[Backport " ++ version ++ "] " ++ extract_original_title pr_title
    (some (create_pull_request env new_branch_name backport_base_branch parent_pr_labels
        backport_pr_title cherry_pick_conflict jira_failed remaining_backport_labels version),
      original_pr_labels)

/-! ## The orchestrator (backport_with_jira) -/

/-- One step of the label conversion loop at the end of backport_with_jira:
remove backport/X.Y and add backport/X.Y-pending; when the label is absent
the GitHub call raises and the except clause skips the addition. -/
def convert_label_to_pending (labels : List String) (label : String) : List String :=
  if label ∈ labels then
    add_label (remove_label labels label)
      ("backport/" ++ py_replace label "backport/" "" ++ "-pending")
  else labels

/-- The conversion loop over the remaining backport labels, in order. -/
def convert_labels_to_pending (labels : List String) : List String → List String
  | [] => labels
  | l :: ls => convert_labels_to_pending (convert_label_to_pending labels l) ls

/-- Inner loop of the sub-issue creation pass of backport_with_jira, for one
version over all parent Jira keys.  Returns, in iteration order, the
version_to_jira_mapping entries (version, parent key, mapped key), the
jira_failures entries (version, parent key), and the report_jira_failure
calls (parent key, version).  On failure the parent key is mapped to itself
as fallback. -/
def build_version_jira_mapping (store : JiraStore) (jira_enabled : Bool)
    (version original_title : String) :
    List String →
      List (String × String × String) × List (String × String) × List (String × String)
  | [] => ([], [], [])
  | parent_jira_key :: keys =>
    let rest := build_version_jira_mapping store jira_enabled version original_title keys
    if jira_enabled then
      match create_jira_sub_issue store parent_jira_key version original_title with
      | some sub_issue_key =>
        ((version, parent_jira_key, sub_issue_key) :: rest.1, rest.2.1, rest.2.2)
      | none =>
        ((version, parent_jira_key, parent_jira_key) :: rest.1,
          (version, parent_jira_key) :: rest.2.1,
          (parent_jira_key, version) :: rest.2.2)
    else
      ((version, parent_jira_key, parent_jira_key) :: rest.1, rest.2.1, rest.2.2)

/-- Outer loop of the sub-issue creation pass of backport_with_jira, over
all sorted versions. -/
def build_jira_mappings (store : JiraStore) (jira_enabled : Bool) (original_title : String) :
    List String → List String →
      List (String × String × String) × List (String × String) × List (String × String)
  | [], _ => ([], [], [])
  | version :: versions, all_jira_keys =>
    let here := build_version_jira_mapping store jira_enabled version original_title all_jira_keys
    let rest := build_jira_mappings store jira_enabled original_title versions all_jira_keys
    (here.1 ++ rest.1, here.2.1 ++ rest.2.1, here.2.2 ++ rest.2.2)

/-- The external state backport_with_jira interacts with: the repository
data, the per-version existing-backport-PR search, the per-branch recent
history, the per-version git outcomes, and the Jira side. -/
structure BwjEnv where
  repo_name : String
  tags : List String
  milestone_create_ok : Bool
  existing_backport_pr : String → Bool
  branch_commits : String → List Commit
  git_fail : String → Bool
  cherry_pick_conflict : String → Bool
  jira_enabled : Bool
  store : JiraStore

/-- The repository-level part of a BwjEnv. -/
def BwjEnv.core (env : BwjEnv) : BackportEnv :=
  ⟨env.repo_name, env.tags, env.milestone_create_ok⟩

/-- Everything backport_with_jira decides: the tracking PRs created in this
invocation, whether an existing PR was returned instead, the final labels of
the original PR, and the three Jira bookkeeping lists of the creation pass. -/
structure BwjResult where
  created_prs : List TrackingPR
  returned_existing : Bool
  original_pr_labels : List String
  version_jira_mapping : List (String × String × String)
  jira_failures : List (String × String)
  reported_failures : List (String × String)
deriving DecidableEq

/-- Source: backport_with_jira.  Sorts the requested versions (a parse
failure aborts the whole call, modelled by none), creates Jira sub-issues
for every (version, parent key) pair with parent-key fallback and failure
reporting, then either creates tracking PRs for all versions (parallel mode,
triggered by the parallel_backport label) or only for the highest version,
carrying the rest as backport labels on the new PR and converting them to
pending labels on the original PR.  The PR body generation and the
root-author assignment do not affect the modelled outcome and are omitted. -/
def backport_with_jira (env : BwjEnv) (pr_number : Nat) (pr_title : String)
    (pr_labels : List String) (versions : List String) (commits : List Commit)
    (body_jira_keys : List String) (main_jira_key : Option String) :
    Option BwjResult :=
  match sort_versions_descending versions with
  | none => none
  | some sorted_versions =>
    let parallel_backport := "parallel_backport" ∈ pr_labels
    let all_jira_keys :=
      if body_jira_keys.isEmpty then
        match main_jira_key with
        | some k => [k]
        | none => []
      else body_jira_keys
    let original_title := extract_original_title pr_title
    let built := build_jira_mappings env.store env.jira_enabled original_title
      sorted_versions all_jira_keys
    match sorted_versions with
    | [] =>
      some ⟨[], false, pr_labels, built.1, built.2.1, built.2.2⟩
    | highest_version :: rest_versions =>
      if parallel_backport then
        let step := fun (acc : List TrackingPR × List String) version =>
          if env.existing_backport_pr version then acc
          else
            let jira_failed :=
              all_jira_keys.any fun k => decide ((version, k) ∈ built.2.1)
            let target_branch := get_branch_name env.repo_name version
            match backport env.core pr_number pr_title acc.2 version commits target_branch
                (env.branch_commits target_branch) (env.git_fail version)
                (env.cherry_pick_conflict version) jira_failed [] acc.2 with
            | (some bp, labels2) => (acc.1 ++ [bp], labels2)
            | (none, labels2) => (acc.1, labels2)
        let out := (highest_version :: rest_versions).foldl step ([], pr_labels)
        some ⟨out.1, false, out.2, built.1, built.2.1, built.2.2⟩
      else
        let remaining_backport_labels := rest_versions.map requested_label
        if env.existing_backport_pr highest_version then
          some ⟨[], true, pr_labels, built.1, built.2.1, built.2.2⟩
        else
          let jira_failed :=
            all_jira_keys.any fun k => decide ((highest_version, k) ∈ built.2.1)
          let target_branch := get_branch_name env.repo_name highest_version
          match backport env.core pr_number pr_title pr_labels highest_version commits
              target_branch (env.branch_commits target_branch)
              (env.git_fail highest_version) (env.cherry_pick_conflict highest_version)
              jira_failed remaining_backport_labels pr_labels with
          | (some bp, labels1) =>
            let final_labels :=
              if remaining_backport_labels.isEmpty then labels1
              else convert_labels_to_pending labels1 remaining_backport_labels
            some ⟨[bp], false, final_labels, built.1, built.2.1, built.2.2⟩
          | (none, labels1) =>
            some ⟨[], false, labels1, built.1, built.2.1, built.2.2⟩

/-- Concrete Jira store used in concrete evaluations below: K-1 is a
top-level issue and sub-issue creation succeeds only for version 2025.4. -/
def demo_store : JiraStore where
  issues := fun k => if k = "K-1" then some ⟨false, none⟩ else none
  existing_sub_issue := fun _ _ => none
  create_result := fun _ version => if version = "2025.4" then some "K-2" else none

/-- Concrete Jira store in which K-sub is a sub-task of the top-level issue
K-top, used to exercise the hierarchy rule. -/
def demo_sub_store : JiraStore where
  issues := fun k =>
    if k = "K-sub" then some ⟨true, some "K-top"⟩
    else if k = "K-top" then some ⟨false, none⟩
    else none
  existing_sub_issue := fun _ _ => none
  create_result := fun parent version =>
    if parent = "K-top" && version = "2025.4" then some "K-new" else none

/-- Concrete environment for concrete evaluations below: no existing
backport PRs, empty branch histories, git succeeds, Jira enabled. -/
def demo_env : BwjEnv where
  repo_name := "scylladb/scylladb"
  tags := []
  milestone_create_ok := true
  existing_backport_pr := fun _ => false
  branch_commits := fun _ => []
  git_fail := fun _ => false
  cherry_pick_conflict := fun _ => false
  jira_enabled := true
  store := demo_store

/-! ## Chain tracing (get_root_original_pr) -/

/-- Source: get_root_original_pr.  The PR graph is abstracted to PR numbers:
is_backport tells whether a PR looks like a backport PR (is_backport_pr in
the source) and parent_of is the back-reference lookup
(get_original_pr_from_backport; none when the body has no usable parent
reference).  The fuel argument is max_depth - depth of the source loop, so
the call with fuel = max_depth models the function; when the bound is hit
the current PR is returned. -/
def get_root_original_pr (is_backport : Nat → Bool) (parent_of : Nat → Option Nat) :
    Nat → Nat → Nat
  | 0, current => current
  | fuel + 1, current =>
    if is_backport current = false then current
    else
      match parent_of current with
      | none => current
      | some parent => get_root_original_pr is_backport parent_of fuel parent

/-- The sequence of PRs visited by following parent_of from start, staying
in place when there is no parent; hop k is the PR after k back-reference
hops. -/
def visited_pr (parent_of : Nat → Option Nat) (start : Nat) : Nat → Nat
  | 0 => start
  | k + 1 =>
    match parent_of (visited_pr parent_of start k) with
    | some parent => parent
    | none => visited_pr parent_of start k

/-! ## Helper lemmas about strings and labels -/

theorem chars_start_with_self : ∀ l : List Char, chars_start_with l l = true
  | [] => rfl
  | a :: as => by simp [chars_start_with, chars_start_with_self as]

theorem char_list_has_sub_self : ∀ l : List Char, char_list_has_sub l l = true
  | [] => rfl
  | a :: as => by simp [char_list_has_sub, chars_start_with_self]

theorem str_in_self (s : String) : str_in s s = true :=
  char_list_has_sub_self _

theorem mem_add_label {L : List String} {l x : String} :
    x ∈ add_label L l ↔ x ∈ L ∨ x = l := by
  unfold add_label
  split_ifs with h
  · constructor
    · exact Or.inl
    · rintro (hx | rfl)
      · exact hx
      · exact h
  · simp [List.mem_append]

theorem mem_remove_label {L : List String} {l x : String} :
    x ∈ remove_label L l ↔ x ∈ L ∧ x ≠ l := by
  unfold remove_label
  simp [List.mem_filter]

theorem str_toList_append (s t : String) : (s ++ t).toList = s.toList ++ t.toList := by
  simp [String.toList]

theorem append_ne_of_length_pos {s t : String} (h : t.length ≠ 0) : s ≠ s ++ t := by
  intro he
  have hl := congrArg String.length he
  rw [String.length_append] at hl
  omega

theorem requested_ne_done (v : String) : requested_label v ≠ done_label v :=
  append_ne_of_length_pos (by decide)

theorem requested_ne_pending (v : String) : requested_label v ≠ pending_label v :=
  append_ne_of_length_pos (by decide)

theorem pending_ne_done (v : String) : pending_label v ≠ done_label v := by
  intro h
  have hl := congrArg String.length h
  rw [pending_label, done_label, String.length_append, String.length_append,
    show ("-pending" : String).length = 8 from rfl,
    show ("-done" : String).length = 5 from rfl] at hl
  omega

theorem getLast_pending (v : String) : (pending_label v).toList.getLast? = some 'g' := by
  rw [pending_label, str_toList_append]
  rw [List.getLast?_append_of_ne_nil _ (by decide)]
  decide

theorem getLast_requested {v : String} (h : ends_with_digit v = true) :
    ∃ c, (requested_label v).toList.getLast? = some c ∧ c.isDigit = true := by
  unfold ends_with_digit at h
  cases hl : v.toList.getLast? with
  | none => rw [hl] at h; simp at h
  | some c =>
    rw [hl] at h
    refine ⟨c, ?_, h⟩
    have hnil : v.toList ≠ [] := by
      intro hv
      rw [hv] at hl
      simp at hl
    rw [requested_label, str_toList_append, List.getLast?_append_of_ne_nil _ hnil, hl]

theorem ne_of_getLast {s t : String} {c d : Char}
    (hs : s.toList.getLast? = some c) (ht : t.toList.getLast? = some d)
    (hcd : c ≠ d) : s ≠ t := by
  intro h
  subst h
  rw [hs] at ht
  exact hcd (Option.some.inj ht)

theorem digit_ne_g {c : Char} (h : c.isDigit = true) : c ≠ 'g' := by
  intro he
  subst he
  exact absurd h (by decide)

theorem requested_ne_pending_of_digit {v w : String} (hv : ends_with_digit v = true) :
    requested_label v ≠ pending_label w := by
  obtain ⟨c, hc, hdig⟩ := getLast_requested hv
  exact ne_of_getLast hc (getLast_pending w) (digit_ne_g hdig)

theorem requested_label_inj {v w : String} (h : requested_label v = requested_label w) :
    v = w := by
  have ht := congrArg String.toList h
  rw [requested_label, requested_label, str_toList_append, str_toList_append] at ht
  exact String.toList_inj.mp (List.append_cancel_left ht)

/-! ## Helper lemmas about replace_backport_label_with_done -/

theorem replace_done_first {L : List String} {v : String}
    (h : requested_label v ∈ L ∨ pending_label v ∈ L ∨ done_label v ∈ L) :
    done_label v ∈ (replace_backport_label_with_done L v).2 ∧
      requested_label v ∉ (replace_backport_label_with_done L v).2 := by
  unfold replace_backport_label_with_done
  split_ifs with h1 h2 h3
  · refine ⟨mem_add_label.mpr (Or.inr rfl), ?_⟩
    intro hx
    rcases mem_add_label.mp hx with hx | hx
    · exact (mem_remove_label.mp hx).2 rfl
    · exact requested_ne_done v hx
  · refine ⟨mem_add_label.mpr (Or.inr rfl), ?_⟩
    intro hx
    rcases mem_add_label.mp hx with hx | hx
    · exact h1 (mem_remove_label.mp hx).1
    · exact requested_ne_done v hx
  · exact ⟨h3, h1⟩
  · rcases h with h | h | h
    · exact absurd h h1
    · exact absurd h h2
    · exact absurd h h3

theorem replace_done_second {L : List String} {v : String}
    (h1 : done_label v ∈ L) (h2 : requested_label v ∉ L) :
    done_label v ∈ (replace_backport_label_with_done L v).2 ∧
      requested_label v ∉ (replace_backport_label_with_done L v).2 ∧
      pending_label v ∉ (replace_backport_label_with_done L v).2 := by
  by_cases hp : pending_label v ∈ L
  · unfold replace_backport_label_with_done
    rw [if_neg h2, if_pos hp]
    refine ⟨mem_add_label.mpr (Or.inr rfl), ?_, ?_⟩
    · intro hx
      rcases mem_add_label.mp hx with hx | hx
      · exact h2 (mem_remove_label.mp hx).1
      · exact requested_ne_done v hx
    · intro hx
      rcases mem_add_label.mp hx with hx | hx
      · exact (mem_remove_label.mp hx).2 rfl
      · exact pending_ne_done v hx
  · unfold replace_backport_label_with_done
    rw [if_neg h2, if_neg hp, if_pos h1]
    exact ⟨h1, h2, hp⟩

/-! ## Helper lemmas about version keys and sorting -/

theorem keyLe_iff {a b : Nat × Int × Int} :
    keyLe a b = true ↔
      (a.1 < b.1 ∨ (a.1 = b.1 ∧
        (a.2.1 < b.2.1 ∨ (a.2.1 = b.2.1 ∧ a.2.2 ≤ b.2.2)))) := by
  simp [keyLe, Bool.or_eq_true, Bool.and_eq_true, decide_eq_true_eq]

theorem keyLe_total (a b : Nat × Int × Int) : keyLe a b = true ∨ keyLe b a = true := by
  rw [keyLe_iff, keyLe_iff]
  omega

theorem keyLe_trans {a b c : Nat × Int × Int} (hab : keyLe a b = true)
    (hbc : keyLe b c = true) : keyLe a c = true := by
  rw [keyLe_iff] at hab hbc ⊢
  omega

instance : IsTotal ((Nat × Int × Int) × String) versionKeyGe :=
  ⟨fun a b => keyLe_total b.1 a.1⟩

instance : IsTrans ((Nat × Int × Int) × String) versionKeyGe :=
  ⟨fun _ _ _ hab hbc => keyLe_trans hbc hab⟩

theorem map_option_none_of_mem {l : List String} {v : String}
    (hv : v ∈ l) (hp : parse_version v = none) :
    map_option (fun v => (parse_version v).map fun k => (k, v)) l = none := by
  induction l with
  | nil => cases hv
  | cons a as ih =>
    rcases List.mem_cons.mp hv with rfl | hv
    · simp [map_option, hp]
    · unfold map_option
      rw [ih hv]
      cases parse_version a <;> simp

theorem map_option_sort_spec {l : List String}
    {keyed : List ((Nat × Int × Int) × String)}
    (h : map_option (fun v => (parse_version v).map fun k => (k, v)) l = some keyed) :
    keyed.map (fun p => p.2) = l ∧ ∀ p ∈ keyed, parse_version p.2 = some p.1 := by
  induction l generalizing keyed with
  | nil =>
    unfold map_option at h
    obtain rfl := Option.some.inj h
    exact ⟨rfl, by intro p hp; cases hp⟩
  | cons a as ih =>
    unfold map_option at h
    rw [Option.bind_eq_some] at h
    obtain ⟨b, hb, hrest⟩ := h
    rw [Option.map_eq_some'] at hb hrest
    obtain ⟨k, hk, rfl⟩ := hb
    obtain ⟨bs, hbs, rfl⟩ := hrest
    obtain ⟨h1, h2⟩ := ih hbs
    refine ⟨by simp [h1], ?_⟩
    intro p hp
    rcases List.mem_cons.mp hp with rfl | hp
    · exact hk
    · exact h2 p hp

theorem parse_version_core_fst {clean : String} {pre : Nat} {k : Nat × Int × Int}
    (h : parse_version_core clean pre = some k) : k.1 = pre := by
  unfold parse_version_core at h
  revert h
  generalize split_on_char '.' clean.toList = parts
  intro h
  rcases parts with _ | ⟨p0, _ | ⟨p1, rest⟩⟩
  · exact absurd h (by simp)
  · exact absurd h (by simp)
  · have h2 : (match py_int p0, py_int p1 with
        | some a, some b => some (pre, a, b)
        | _, _ => none) = some k := h
    clear h
    revert h2
    generalize py_int p0 = a0
    generalize py_int p1 = b0
    intro h2
    rcases a0 with _ | a <;> rcases b0 with _ | b
    · exact absurd h2 (by simp)
    · exact absurd h2 (by simp)
    · exact absurd h2 (by simp)
    · obtain rfl := Option.some.inj h2
      rfl

theorem parse_version_fst {v : String} {k : Nat × Int × Int}
    (h : parse_version v = some k) : k.1 = if is_manager_version v then 0 else 1 := by
  unfold parse_version at h
  exact parse_version_core_fst h

/-! ## Claim C3: sort_versions_descending ordering -/

/-- Claim C3: whenever sort_versions_descending succeeds, its output is a
permutation of the input in which no manager version precedes a standard
version, and any two entries are ordered by descending parse key, so that
within one kind the order is by numeric major then numeric minor, highest
first. -/
theorem c3_sort_versions_descending_order (versions out : List String)
    (h : sort_versions_descending versions = some out) :
    out.Perm versions ∧
      (∀ (i j : Fin out.length), (i : Nat) < (j : Nat) →
        is_manager_version (out.get i) = true → is_manager_version (out.get j) = true) ∧
      (∀ (i j : Fin out.length), (i : Nat) < (j : Nat) →
        ∀ ki kj, parse_version (out.get i) = some ki →
          parse_version (out.get j) = some kj →
          keyLe kj ki = true ∧
            (ki.1 = kj.1 →
              (kj.2.1 < ki.2.1 ∨ (kj.2.1 = ki.2.1 ∧ kj.2.2 ≤ ki.2.2)))) := by
  unfold sort_versions_descending at h
  cases hmo : map_option (fun v => (parse_version v).map fun k => (k, v)) versions with
  | none => rw [hmo] at h; exact absurd h (by simp)
  | some keyed =>
    rw [hmo] at h
    obtain rfl := Option.some.inj h
    obtain ⟨hsnd, hparse⟩ := map_option_sort_spec hmo
    have hperm : (keyed.insertionSort versionKeyGe).Perm keyed :=
      List.perm_insertionSort _ _
    have hsorted : List.Sorted versionKeyGe (keyed.insertionSort versionKeyGe) :=
      List.sorted_insertionSort _ _
    have hparse2 : ∀ p ∈ keyed.insertionSort versionKeyGe, parse_version p.2 = some p.1 :=
      fun p hp => hparse p (hperm.subset hp)
    have hlen : ((keyed.insertionSort versionKeyGe).map (fun p => p.2)).length =
        (keyed.insertionSort versionKeyGe).length := List.length_map _ _
    have hget : ∀ (i : Fin ((keyed.insertionSort versionKeyGe).map (fun p => p.2)).length),
        ((keyed.insertionSort versionKeyGe).map (fun p => p.2)).get i =
          ((keyed.insertionSort versionKeyGe).get (i.cast hlen)).2 := by
      intro i
      simp [List.get_map]
    have hkey : ∀ (i : Fin ((keyed.insertionSort versionKeyGe).map (fun p => p.2)).length)
        (ki : Nat × Int × Int),
        parse_version (((keyed.insertionSort versionKeyGe).map (fun p => p.2)).get i) =
          some ki →
        ki = ((keyed.insertionSort versionKeyGe).get (i.cast hlen)).1 := by
      intro i ki hki
      rw [hget i] at hki
      have hmem := (keyed.insertionSort versionKeyGe).get_mem (i.cast hlen).1 (i.cast hlen).2
      have := hparse2 _ hmem
      rw [this] at hki
      exact (Option.some.inj hki).symm
    have hrel : ∀ (i j : Fin ((keyed.insertionSort versionKeyGe).map (fun p => p.2)).length),
        (i : Nat) < (j : Nat) →
        keyLe ((keyed.insertionSort versionKeyGe).get (j.cast hlen)).1
          ((keyed.insertionSort versionKeyGe).get (i.cast hlen)).1 = true := by
      intro i j hij
      exact hsorted.rel_get_of_lt (a := i.cast hlen) (b := j.cast hlen) hij
    refine ⟨?_, ?_, ?_⟩
    · have := hperm.map (fun p => p.2)
      rw [hsnd] at this
      exact this
    · intro i j hij hmi
      have hpi : parse_version (((keyed.insertionSort versionKeyGe).map (fun p => p.2)).get i) =
          some ((keyed.insertionSort versionKeyGe).get (i.cast hlen)).1 := by
        rw [hget i]
        exact hparse2 _ ((keyed.insertionSort versionKeyGe).get_mem (i.cast hlen).1
          (i.cast hlen).2)
      have hpj : parse_version (((keyed.insertionSort versionKeyGe).map (fun p => p.2)).get j) =
          some ((keyed.insertionSort versionKeyGe).get (j.cast hlen)).1 := by
        rw [hget j]
        exact hparse2 _ ((keyed.insertionSort versionKeyGe).get_mem (j.cast hlen).1
          (j.cast hlen).2)
      have hfi := parse_version_fst hpi
      have hfj := parse_version_fst hpj
      rw [if_pos hmi] at hfi
      have hk := hrel i j hij
      rw [keyLe_iff] at hk
      by_cases hmj : is_manager_version
          (((keyed.insertionSort versionKeyGe).map (fun p => p.2)).get j) = true
      · exact hmj
      · rw [if_neg hmj] at hfj
        omega
    · intro i j hij ki kj hki hkj
      obtain rfl := hkey i ki hki
      obtain rfl := hkey j kj hkj
      have hk := hrel i j hij
      refine ⟨hk, ?_⟩
      intro heq
      rw [keyLe_iff] at hk
      omega

/-- Claim C3, witness: the ordering theorem applied to a concrete mixed
list of standard and manager versions. -/
theorem c3_sort_versions_descending_order_witness :
    sort_versions_descending ["2025.3", "manager-9.9", "2025.4"] =
        some ["2025.4", "2025.3", "manager-9.9"] ∧
      (["2025.4", "2025.3", "manager-9.9"] : List String).Perm
        ["2025.3", "manager-9.9", "2025.4"] :=
  ⟨by decide,
    (c3_sort_versions_descending_order ["2025.3", "manager-9.9", "2025.4"]
      ["2025.4", "2025.3", "manager-9.9"] (by decide)).1⟩

/-! ## Claim C9: behavior on malformed version strings -/

/-- Claim C9, counterexample to the claim as stated: the string 1.2.3 is not
of the expected major.minor shape yet parse_version accepts it (ignoring the
third component), and when a version string does fail to parse (bad), the
sorting caller does not skip the offending entry: sort_versions_descending
and the whole backport_with_jira invocation abort, processing nothing, not
even the well-formed 2025.4. -/
theorem c9_counterexample :
    parse_version "1.2.3" = some (1, 1, 2) ∧
      parse_version "bad" = none ∧
      sort_versions_descending ["2025.4", "bad"] = none ∧
      backport_with_jira demo_env 100 "t" [] ["2025.4", "bad"] [] [] none = none := by
  refine ⟨by decide, by decide, by decide, by decide⟩

/-- Claim C9 (amended): parse_version fails (Python: raises, modelled by
none) on version strings whose first two dot-separated components are not
integers or which lack a second component; there is no dedicated
InvalidVersionFormat error and extra components are silently accepted.  A
parse failure is not skipped by the caller: sort_versions_descending and
hence the whole backport_with_jira invocation abort the entire batch.
Malformed labels are instead excluded upstream by the
backport/(manager-)?\d+\.\d+$ pattern in main() before parsing. -/
theorem c9_parse_failure_aborts_batch (versions : List String) (v : String)
    (hv : v ∈ versions) (hp : parse_version v = none) :
    sort_versions_descending versions = none ∧
      ∀ (env : BwjEnv) (pr_number : Nat) (pr_title : String) (pr_labels : List String)
        (commits : List Commit) (body_jira_keys : List String)
        (main_jira_key : Option String),
        backport_with_jira env pr_number pr_title pr_labels versions commits
          body_jira_keys main_jira_key = none := by
  have hs : sort_versions_descending versions = none := by
    unfold sort_versions_descending
    rw [map_option_none_of_mem hv hp]
  refine ⟨hs, ?_⟩
  intro env pr_number pr_title pr_labels commits body_jira_keys main_jira_key
  unfold backport_with_jira
  rw [hs]

/-- Claim C9, witness: the amended theorem applied to the single-element
batch containing the unparseable version x. -/
theorem c9_parse_failure_aborts_batch_witness :
    (("x" : String) ∈ ["x"] ∧ parse_version "x" = none) ∧
      (sort_versions_descending ["x"] = none ∧
        backport_with_jira demo_env 100 "t" [] ["x"] [] [] none = none) :=
  ⟨⟨by decide, by decide⟩,
    (c9_parse_failure_aborts_batch ["x"] "x" (by decide) (by decide)).1,
    (c9_parse_failure_aborts_batch ["x"] "x" (by decide) (by decide)).2
      demo_env 100 "t" [] [] [] none⟩

/-! ## Claim C10: manager versions never get a milestone -/

/-- Claim C10: for every manager-prefixed version string and for the empty
version string, resolve_backport_milestone_title returns none whatever the
tags are, set_pr_milestone then reports false and assigns nothing, and the
tracking PR built by create_pull_request for such a version carries no
milestone. -/
theorem c10_manager_version_no_milestone (version : String)
    (h : version = "" ∨ is_manager_version version = true) :
    (∀ tags, resolve_backport_milestone_title tags version = none) ∧
      (∀ tags current create_ok,
        set_pr_milestone current create_ok
          (resolve_backport_milestone_title tags version) = (false, current)) ∧
      ∀ (env : BackportEnv) (new_branch_name base_branch_name : String)
        (parent_pr_labels : List String) (backport_pr_title : String)
        (is_draft jira_failed : Bool) (remaining_backport_labels : List String),
        (create_pull_request env new_branch_name base_branch_name parent_pr_labels
          backport_pr_title is_draft jira_failed remaining_backport_labels
          version).milestone = none := by
  have hres : ∀ tags, resolve_backport_milestone_title tags version = none := by
    intro tags
    unfold resolve_backport_milestone_title
    rcases h with rfl | hm
    · rw [if_pos (by simp)]
    · rw [if_pos (by simp [hm])]
  refine ⟨hres, ?_, ?_⟩
  · intro tags current create_ok
    rw [hres tags]
    rfl
  · intro env new_branch_name base_branch_name parent_pr_labels backport_pr_title
      is_draft jira_failed remaining_backport_labels
    simp only [create_pull_request]
    by_cases hv : version = ""
    · simp [hv]
    · rw [if_pos hv, hres env.tags]
      rfl

/-- Claim C10, witness: manager-3.4 resolves to no milestone and its
tracking PR gets none. -/
theorem c10_manager_version_no_milestone_witness :
    (("manager-3.4" : String) = "" ∨ is_manager_version "manager-3.4" = true) ∧
      resolve_backport_milestone_title ["scylla-2025.4.0"] "manager-3.4" = none ∧
      (create_pull_request ⟨"scylladb/scylladb", ["scylla-2025.4.0"], true⟩
        "backport/100/to-manager-3.4" "manager-3.4" [] "t" false false []
        "manager-3.4").milestone = none :=
  ⟨Or.inr (by decide),
    (c10_manager_version_no_milestone "manager-3.4" (Or.inr (by decide))).1 _,
    (c10_manager_version_no_milestone "manager-3.4" (Or.inr (by decide))).2.2
      _ _ _ _ _ _ _ _⟩

/-! ## Helper lemmas for the milestone fold -/

theorem latest_patch_step_none {v t : String} {st : Option Int × Bool}
    (h1 : release_tag_patch v t = none) (h2 : rc_tag_patch v t = none) :
    latest_patch_step v st t = st := by
  unfold latest_patch_step
  rw [h1, h2]

theorem fold_latest_all_none {v : String} {tags : List String}
    (h : ∀ t ∈ tags, release_tag_patch v t = none ∧ rc_tag_patch v t = none) :
    ∀ st, tags.foldl (latest_patch_step v) st = st := by
  induction tags with
  | nil => intro st; rfl
  | cons t ts ih =>
    intro st
    obtain ⟨h1, h2⟩ := h t (List.mem_cons_self t ts)
    rw [List.foldl_cons, latest_patch_step_none h1 h2]
    exact ih (fun u hu => h u (List.mem_cons_of_mem _ hu)) st

theorem fold_latest_keep_some {v : String} {tags : List String}
    (h : ∀ t ∈ tags, release_tag_patch v t = none) :
    ∀ (l : Int) (b : Bool),
      (tags.foldl (latest_patch_step v) (some l, b)).1 = some l := by
  induction tags with
  | nil => intro l b; rfl
  | cons t ts ih =>
    intro l b
    have hrel := h t (List.mem_cons_self t ts)
    rw [List.foldl_cons]
    cases hrc : rc_tag_patch v t with
    | none =>
      rw [latest_patch_step_none hrel hrc]
      exact ih (fun u hu => h u (List.mem_cons_of_mem _ hu)) l b
    | some p =>
      have hstep : latest_patch_step v (some l, b) t = (some l, true) := by
        unfold latest_patch_step
        rw [hrel, hrc]
      rw [hstep]
      exact ih (fun u hu => h u (List.mem_cons_of_mem _ hu)) l true

theorem fold_latest_release {v : String} {tags : List String}
    (h : ∀ t ∈ tags, rc_tag_patch v t = none) :
    ∀ (l : Int) (b : Bool),
      tags.foldl (latest_patch_step v) (some l, b) =
        (some ((tags.filterMap (release_tag_patch v)).foldl int_max_step l), b) := by
  induction tags with
  | nil => intro l b; rfl
  | cons t ts ih =>
    intro l b
    have hrc := h t (List.mem_cons_self t ts)
    rw [List.foldl_cons]
    cases hrel : release_tag_patch v t with
    | none =>
      rw [latest_patch_step_none hrel hrc, List.filterMap_cons_none hrel]
      exact ih (fun u hu => h u (List.mem_cons_of_mem _ hu)) l b
    | some p =>
      have hstep : latest_patch_step v (some l, b) t =
          (if (p : Int) > l then some (p : Int) else some l, b) := by
        unfold latest_patch_step
        rw [hrel]
      rw [hstep, List.filterMap_cons_some hrel, List.foldl_cons]
      by_cases hpl : (p : Int) > l
      · rw [if_pos hpl, show int_max_step l p = (p : Int) by unfold int_max_step; rw [if_pos hpl]]
        exact ih (fun u hu => h u (List.mem_cons_of_mem _ hu)) (p : Int) b
      · rw [if_neg hpl, show int_max_step l p = l by unfold int_max_step; rw [if_neg hpl]]
        exact ih (fun u hu => h u (List.mem_cons_of_mem _ hu)) l b

theorem fold_latest_release_from_none {v : String} {tags : List String}
    (h : ∀ t ∈ tags, rc_tag_patch v t = none) :
    ∀ {p : Nat} {ps : List Nat},
      tags.filterMap (release_tag_patch v) = p :: ps →
      tags.foldl (latest_patch_step v) (none, false) =
        (some (ps.foldl int_max_step (p : Int)), false) := by
  induction tags with
  | nil => intro p ps hfm; simp at hfm
  | cons t ts ih =>
    intro p ps hfm
    have hrc := h t (List.mem_cons_self t ts)
    rw [List.foldl_cons]
    cases hrel : release_tag_patch v t with
    | none =>
      rw [List.filterMap_cons_none hrel] at hfm
      rw [latest_patch_step_none hrel hrc]
      exact ih (fun u hu => h u (List.mem_cons_of_mem _ hu)) hfm
    | some q =>
      rw [List.filterMap_cons_some hrel] at hfm
      obtain ⟨rfl, rfl⟩ := List.cons.inj hfm
      have hstep : latest_patch_step v (none, false) t = (some (q : Int), false) := by
        unfold latest_patch_step
        rw [hrel]
      rw [hstep]
      exact fold_latest_release (fun u hu => h u (List.mem_cons_of_mem _ hu)) (q : Int) false

theorem fold_latest_rc_from_none {v : String} {tags : List String}
    (h : ∀ t ∈ tags, release_tag_patch v t = none) :
    ∀ {p : Nat} {ps : List Nat},
      tags.filterMap (rc_tag_patch v) = p :: ps →
      (tags.foldl (latest_patch_step v) (none, false)).1 = some ((p : Int) - 1) := by
  induction tags with
  | nil => intro p ps hfm; simp at hfm
  | cons t ts ih =>
    intro p ps hfm
    have hrel := h t (List.mem_cons_self t ts)
    rw [List.foldl_cons]
    cases hrc : rc_tag_patch v t with
    | none =>
      rw [List.filterMap_cons_none hrc] at hfm
      rw [latest_patch_step_none hrel hrc]
      exact ih (fun u hu => h u (List.mem_cons_of_mem _ hu)) hfm
    | some q =>
      rw [List.filterMap_cons_some hrc] at hfm
      obtain ⟨rfl, rfl⟩ := List.cons.inj hfm
      have hstep : latest_patch_step v (none, false) t = (some ((q : Int) - 1), true) := by
        unfold latest_patch_step
        rw [hrel, hrc]
      rw [hstep]
      exact fold_latest_keep_some (fun u hu => h u (List.mem_cons_of_mem _ hu)) _ true

theorem foldl_if_max (ps : List Nat) : ∀ a : Int,
    (ps.foldl int_max_step a = a ∨
        ∃ q ∈ ps, ps.foldl int_max_step a = (q : Int)) ∧
      a ≤ ps.foldl int_max_step a ∧
      ∀ q ∈ ps, (q : Int) ≤ ps.foldl int_max_step a := by
  induction ps with
  | nil => intro a; exact ⟨Or.inl rfl, le_refl a, by intro q hq; cases hq⟩
  | cons q qs ih =>
    intro a
    rw [List.foldl_cons]
    obtain ⟨h1, h2, h3⟩ := ih (int_max_step a q)
    have hga : a ≤ int_max_step a q := by
      unfold int_max_step
      split_ifs with hq
      · omega
      · exact le_refl a
    have hgq : (q : Int) ≤ int_max_step a q := by
      unfold int_max_step
      split_ifs with hq
      · exact le_refl _
      · omega
    refine ⟨?_, le_trans hga h2, ?_⟩
    · rcases h1 with h1 | ⟨r, hr, h1⟩
      · rw [h1]
        unfold int_max_step
        split_ifs with hq
        · exact Or.inr ⟨q, List.mem_cons_self q qs, rfl⟩
        · exact Or.inl rfl
      · exact Or.inr ⟨r, List.mem_cons_of_mem _ hr, h1⟩
    · intro r hr
      rcases List.mem_cons.mp hr with rfl | hr
      · exact le_trans hgq h2
      · exact h3 r hr

/-! ## Claim C8: milestone resolution from tags -/

/-- Claim C8, counterexample to the claim as stated: with the single
prerelease tag scylla-2025.4.1-rc1 (an rc for patch 1, no release tags),
resolve_backport_milestone_title proposes 2025.4.1, not 2025.4.0 as the
claim requires for the only-prerelease case. -/
theorem c8_counterexample :
    resolve_backport_milestone_title ["scylla-2025.4.1-rc1"] "2025.4" = some "2025.4.1" ∧
      resolve_backport_milestone_title ["scylla-2025.4.1-rc1"] "2025.4" ≠
        some "2025.4.0" := by
  refine ⟨by decide, by decide⟩

/-- Claim C8 (amended): for a non-empty non-manager version v, (a) when no
tag matches the release or rc pattern of v, resolution returns none and
milestone assignment is skipped without failing; (b) when no rc tag matches
and some release tags do, the proposed milestone is v.(m+1) where m is the
highest matched release patch; (c) when no release tag matches and some rc
tags do, the proposed milestone is v.p where p is the patch number of the
first matching rc tag in scan order (v.0 only when that rc is for patch 0,
not in general as the claim states). -/
theorem c8_milestone_resolution (v : String) (tags : List String)
    (hv1 : v ≠ "") (hv2 : is_manager_version v = false) :
    ((∀ t ∈ tags, release_tag_patch v t = none ∧ rc_tag_patch v t = none) →
      resolve_backport_milestone_title tags v = none ∧
        ∀ current create_ok,
          set_pr_milestone current create_ok
            (resolve_backport_milestone_title tags v) = (false, current)) ∧
      ((∀ t ∈ tags, rc_tag_patch v t = none) →
        ∀ p ps, tags.filterMap (release_tag_patch v) = p :: ps →
          ∃ m : Int,
            resolve_backport_milestone_title tags v =
              some (v ++ "." ++ toString (m + 1)) ∧
            (m = (p : Int) ∨ ∃ q ∈ ps, m = (q : Int)) ∧
            (p : Int) ≤ m ∧ ∀ q ∈ ps, (q : Int) ≤ m) ∧
      ((∀ t ∈ tags, release_tag_patch v t = none) →
        ∀ p ps, tags.filterMap (rc_tag_patch v) = p :: ps →
          resolve_backport_milestone_title tags v =
            some (v ++ "." ++ toString (p : Int))) := by
  have hcond : (decide (v = "") || is_manager_version v) = false := by
    simp [hv1, hv2]
  refine ⟨?_, ?_, ?_⟩
  · intro h
    have hres : resolve_backport_milestone_title tags v = none := by
      unfold resolve_backport_milestone_title
      rw [if_neg (by simp [hv1, hv2])]
      unfold find_latest_patch_for_branch
      rw [fold_latest_all_none h]
      rfl
    refine ⟨hres, ?_⟩
    intro current create_ok
    rw [hres]
    rfl
  · intro h p ps hfm
    have hfold := fold_latest_release_from_none h hfm
    obtain ⟨h1, h2, h3⟩ := foldl_if_max ps (p : Int)
    refine ⟨ps.foldl int_max_step (p : Int), ?_, ?_, h2, h3⟩
    · unfold resolve_backport_milestone_title
      rw [if_neg (by simp [hv1, hv2])]
      unfold find_latest_patch_for_branch
      rw [hfold]
    · rcases h1 with h1 | ⟨r, hr, h1⟩
      · exact Or.inl h1
      · exact Or.inr ⟨r, hr, h1⟩
  · intro h p ps hfm
    have hfold := fold_latest_rc_from_none h hfm
    unfold resolve_backport_milestone_title
    rw [if_neg (by simp [hv1, hv2])]
    unfold find_latest_patch_for_branch
    cases hst : tags.foldl (latest_patch_step v) (none, false) with
    | mk l b =>
      rw [hst] at hfold
      simp only at hfold
      rw [hfold]
      show some (v ++ "." ++ toString ((p : Int) - 1 + 1)) =
        some (v ++ "." ++ toString (p : Int))
      have : (p : Int) - 1 + 1 = (p : Int) := by omega
      rw [this]

/-- Claim C8, witness: the amended theorem applied to a repository with one
release tag scylla-2025.4.0 (no rc tags), proposing milestone 2025.4.1. -/
theorem c8_milestone_resolution_witness :
    (∀ t ∈ ["scylla-2025.4.0"], rc_tag_patch "2025.4" t = none) ∧
      ∃ m : Int,
        resolve_backport_milestone_title ["scylla-2025.4.0"] "2025.4" =
          some ("2025.4" ++ "." ++ toString (m + 1)) ∧
        (m = ((0 : Nat) : Int) ∨ ∃ q ∈ ([] : List Nat), m = (q : Int)) ∧
        ((0 : Nat) : Int) ≤ m ∧ ∀ q ∈ ([] : List Nat), (q : Int) ≤ m :=
  ⟨by decide,
    (c8_milestone_resolution "2025.4" ["scylla-2025.4.0"] (by decide) (by decide)).2.1
      (by decide) 0 [] (by decide)⟩

/-! ## Helper lemmas about chain tracing -/

theorem visited_pr_zero (parent_of : Nat → Option Nat) (start : Nat) :
    visited_pr parent_of start 0 = start := rfl

theorem visited_pr_succ (parent_of : Nat → Option Nat) (start k : Nat) :
    visited_pr parent_of start (k + 1) =
      match parent_of (visited_pr parent_of start k) with
      | some parent => parent
      | none => visited_pr parent_of start k := rfl

theorem visited_pr_shift {parent_of : Nat → Option Nat} {start q : Nat}
    (hq : parent_of start = some q) :
    ∀ k, visited_pr parent_of start (k + 1) = visited_pr parent_of q k := by
  intro k
  induction k with
  | zero =>
    rw [visited_pr_succ, visited_pr_zero, hq]
    rfl
  | succ k ih =>
    rw [visited_pr_succ, ih, visited_pr_succ]

theorem get_root_visits (is_backport : Nat → Bool) (parent_of : Nat → Option Nat) :
    ∀ (fuel cur : Nat), ∃ k ≤ fuel,
      get_root_original_pr is_backport parent_of fuel cur =
        visited_pr parent_of cur k := by
  intro fuel
  induction fuel with
  | zero => intro cur; exact ⟨0, le_refl 0, rfl⟩
  | succ fuel ih =>
    intro cur
    by_cases hb : is_backport cur = false
    · refine ⟨0, Nat.zero_le _, ?_⟩
      unfold get_root_original_pr
      rw [if_pos hb]
      rfl
    · cases hp : parent_of cur with
      | none =>
        refine ⟨0, Nat.zero_le _, ?_⟩
        unfold get_root_original_pr
        rw [if_neg hb, hp]
        rfl
      | some q =>
        obtain ⟨k, hk, heq⟩ := ih q
        refine ⟨k + 1, Nat.succ_le_succ hk, ?_⟩
        unfold get_root_original_pr
        rw [if_neg hb, hp]
        show get_root_original_pr is_backport parent_of fuel q =
          visited_pr parent_of cur (k + 1)
        rw [heq, visited_pr_shift hp k]

theorem get_root_bound_hit (is_backport : Nat → Bool) (parent_of : Nat → Option Nat) :
    ∀ (fuel cur : Nat),
      (∀ j < fuel, is_backport (visited_pr parent_of cur j) = true ∧
        (parent_of (visited_pr parent_of cur j)).isSome = true) →
      get_root_original_pr is_backport parent_of fuel cur =
        visited_pr parent_of cur fuel := by
  intro fuel
  induction fuel with
  | zero => intro cur _; rfl
  | succ fuel ih =>
    intro cur h
    obtain ⟨hb0, hp0⟩ := h 0 (Nat.succ_pos fuel)
    rw [visited_pr_zero] at hb0 hp0
    cases hp : parent_of cur with
    | none => rw [hp] at hp0; simp at hp0
    | some q =>
      unfold get_root_original_pr
      rw [if_neg (by simp [hb0]), hp]
      have hh : ∀ j < fuel, is_backport (visited_pr parent_of q j) = true ∧
          (parent_of (visited_pr parent_of q j)).isSome = true := by
        intro j hj
        have hstep := h (j + 1) (Nat.succ_lt_succ hj)
        rw [visited_pr_shift hp j] at hstep
        exact hstep
      show get_root_original_pr is_backport parent_of fuel q =
        visited_pr parent_of cur (fuel + 1)
      rw [ih q hh, visited_pr_shift hp fuel]

theorem get_root_first_root (is_backport : Nat → Bool) (parent_of : Nat → Option Nat) :
    ∀ (fuel cur k : Nat), k < fuel →
      (∀ j < k, is_backport (visited_pr parent_of cur j) = true ∧
        (parent_of (visited_pr parent_of cur j)).isSome = true) →
      is_backport (visited_pr parent_of cur k) = false →
      get_root_original_pr is_backport parent_of fuel cur =
        visited_pr parent_of cur k := by
  intro fuel
  induction fuel with
  | zero => intro cur k hk; exact absurd hk (Nat.not_lt_zero k)
  | succ fuel ih =>
    intro cur k hk hchain hroot
    cases k with
    | zero =>
      rw [visited_pr_zero] at hroot
      unfold get_root_original_pr
      rw [if_pos hroot]
      rfl
    | succ k =>
      obtain ⟨hb0, hp0⟩ := hchain 0 (Nat.succ_pos k)
      rw [visited_pr_zero] at hb0 hp0
      cases hp : parent_of cur with
      | none => rw [hp] at hp0; simp at hp0
      | some q =>
        unfold get_root_original_pr
        rw [if_neg (by simp [hb0]), hp]
        have hchain2 : ∀ j < k, is_backport (visited_pr parent_of q j) = true ∧
            (parent_of (visited_pr parent_of q j)).isSome = true := by
          intro j hj
          have hstep := hchain (j + 1) (Nat.succ_lt_succ hj)
          rw [visited_pr_shift hp j] at hstep
          exact hstep
        have hroot2 : is_backport (visited_pr parent_of q k) = false := by
          rw [← visited_pr_shift hp k]
          exact hroot
        show get_root_original_pr is_backport parent_of fuel q =
          visited_pr parent_of cur (k + 1)
        rw [ih q k (Nat.lt_of_succ_lt_succ hk) hchain2 hroot2, visited_pr_shift hp k]

/-! ## Claim C4: bounded chain tracing -/

/-- Claim C4: get_root_original_pr always terminates after at most
max_depth back-reference hops (its result is some PR visited within the
bound); when every visited PR up to the bound is a backport PR with a
resolvable parent (in particular on any cycle), the bound is hit and the PR
found at hop max_depth is returned; and when the chain reaches a PR that is
not a backport PR within the bound (all earlier hops being backports with
parents), that first non-backport PR is returned. -/
theorem c4_get_root_original_pr_bounded (is_backport : Nat → Bool)
    (parent_of : Nat → Option Nat) (start max_depth : Nat) :
    (∃ k ≤ max_depth,
        get_root_original_pr is_backport parent_of max_depth start =
          visited_pr parent_of start k) ∧
      ((∀ j < max_depth, is_backport (visited_pr parent_of start j) = true ∧
          (parent_of (visited_pr parent_of start j)).isSome = true) →
        get_root_original_pr is_backport parent_of max_depth start =
          visited_pr parent_of start max_depth) ∧
      (∀ k < max_depth,
        (∀ j < k, is_backport (visited_pr parent_of start j) = true ∧
          (parent_of (visited_pr parent_of start j)).isSome = true) →
        is_backport (visited_pr parent_of start k) = false →
        get_root_original_pr is_backport parent_of max_depth start =
          visited_pr parent_of start k) :=
  ⟨get_root_visits is_backport parent_of max_depth start,
    get_root_bound_hit is_backport parent_of max_depth start,
    fun k hk hchain hroot =>
      get_root_first_root is_backport parent_of max_depth start k hk hchain hroot⟩

/-- Claim C4, witness: on a back-reference cycle of length 15 where every PR
looks like a backport, tracing with max_depth 10 stops and returns the PR
found at hop 10. -/
theorem c4_get_root_original_pr_bounded_witness :
    get_root_original_pr (fun _ => true) (fun n => some ((n + 1) % 15)) 10 0 = 10 := by
  have h := (c4_get_root_original_pr_bounded (fun _ => true)
    (fun n => some ((n + 1) % 15)) 0 10).2.1 (by decide)
  rw [h]
  decide

/-! ## Claim C6: sub-issue hierarchy rule -/

/-- Claim C6: when the parent issue key refers to an issue that is itself a
sub-task (with parent gp), create_jira_sub_issue_outcome finds or creates
the new sub-task under gp, the grandparent — never under the original
parent when the two differ — and the description of a created sub-task
records the substitution; moreover, under the Jira invariant that the
parent of a sub-task is not itself a sub-task, the effective parent gp is a
top-level issue, so the hierarchy stays within 2 levels. -/
theorem c6_sub_issue_under_grandparent (store : JiraStore)
    (parent_key version original_title gp : String) (iss : JiraIssue)
    (hi : store.issues parent_key = some iss)
    (hsub : iss.subtask = true)
    (hp : iss.parent = some gp) :
    (∀ u k, create_jira_sub_issue_outcome store parent_key version original_title =
        some (SubIssueOutcome.found u k) → u = gp) ∧
      (∀ u s d r,
        create_jira_sub_issue_outcome store parent_key version original_title =
            some (SubIssueOutcome.created u s d r) →
          u = gp ∧ r = true ∧
            d = "Backporting of " ++ parent_key ++ " (sub-task of " ++ gp ++
              ") to version " ++ version) ∧
      (gp ≠ parent_key →
        ∀ u,
          ((∃ k, create_jira_sub_issue_outcome store parent_key version original_title =
              some (SubIssueOutcome.found u k)) ∨
            (∃ s d r,
              create_jira_sub_issue_outcome store parent_key version original_title =
                some (SubIssueOutcome.created u s d r))) →
          u ≠ parent_key) ∧
      ((∀ key issue p pIss, store.issues key = some issue → issue.subtask = true →
          issue.parent = some p → store.issues p = some pIss → pIss.subtask = false) →
        ∀ gpIss, store.issues gp = some gpIss → gpIss.subtask = false) := by
  have hout : create_jira_sub_issue_outcome store parent_key version original_title =
      match store.existing_sub_issue gp version with
      | some existing_key => some (SubIssueOutcome.found gp existing_key)
      | none =>
        match store.create_result gp version with
        | some _ =>
          some (SubIssueOutcome.created gp
            ("[Backport " ++ version ++ "] - " ++ original_title)
            ("Backporting of " ++ parent_key ++ " (sub-task of " ++ gp ++
              ") to version " ++ version) true)
        | none => none := by
    simp only [create_jira_sub_issue_outcome, hi, get_parent_key_if_subtask, hsub, hp]
    rfl
  have hfound : ∀ u k,
      create_jira_sub_issue_outcome store parent_key version original_title =
        some (SubIssueOutcome.found u k) → u = gp := by
    intro u k heq
    rw [hout] at heq
    cases hex : store.existing_sub_issue gp version with
    | some e =>
      rw [hex] at heq
      obtain h := Option.some.inj heq
      cases h
      rfl
    | none =>
      rw [hex] at heq
      cases hcr : store.create_result gp version with
      | some n => rw [hcr] at heq; simp at heq
      | none => rw [hcr] at heq; simp at heq
  have hcreated : ∀ u s d r,
      create_jira_sub_issue_outcome store parent_key version original_title =
          some (SubIssueOutcome.created u s d r) →
        u = gp ∧ r = true ∧
          d = "Backporting of " ++ parent_key ++ " (sub-task of " ++ gp ++
            ") to version " ++ version := by
    intro u s d r heq
    rw [hout] at heq
    cases hex : store.existing_sub_issue gp version with
    | some e => rw [hex] at heq; simp at heq
    | none =>
      rw [hex] at heq
      cases hcr : store.create_result gp version with
      | some n =>
        rw [hcr] at heq
        obtain h := Option.some.inj heq
        cases h
        exact ⟨rfl, rfl, rfl⟩
      | none => rw [hcr] at heq; simp at heq
  refine ⟨hfound, hcreated, ?_, ?_⟩
  · intro hne u hu
    rcases hu with ⟨k, hk⟩ | ⟨s, d, r, hc⟩
    · obtain rfl := hfound u k hk
      exact hne
    · obtain ⟨rfl, -, -⟩ := hcreated u s d r hc
      exact hne
  · intro hwf gpIss hgp
    exact hwf parent_key iss gp gpIss hi hsub hp hgp

/-- Claim C6, witness: creating a backport sub-issue for K-sub, itself a
sub-task of K-top, creates under K-top with the substitution recorded. -/
theorem c6_sub_issue_under_grandparent_witness :
    create_jira_sub_issue_outcome demo_sub_store "K-sub" "2025.4" "Fix bug" =
        some (SubIssueOutcome.created "K-top" "[Backport 2025.4] - Fix bug"
          "Backporting of K-sub (sub-task of K-top) to version 2025.4" true) ∧
      ("K-top" = "K-top" ∧ (true : Bool) = true ∧
        "Backporting of K-sub (sub-task of K-top) to version 2025.4" =
          "Backporting of " ++ "K-sub" ++ " (sub-task of " ++ "K-top" ++
            ") to version " ++ "2025.4") :=
  ⟨by decide,
    (c6_sub_issue_under_grandparent demo_sub_store "K-sub" "2025.4" "Fix bug" "K-top"
      ⟨true, some "K-top"⟩ (by decide) rfl rfl).2.1 "K-top" "[Backport 2025.4] - Fix bug"
      "Backporting of K-sub (sub-task of K-top) to version 2025.4" true (by decide)⟩

/-! ## Claim C5: replace_backport_label_with_done -/

/-- Claim C5, counterexample to the claim as stated: on a PR carrying none
of the three labels for the version, two consecutive calls of
replace_backport_label_with_done leave the done label absent, so it is not
true that after two calls exactly backport/<v>-done is present. -/
theorem c5_counterexample :
    done_label "2025.4" ∉
      (replace_backport_label_with_done
        (replace_backport_label_with_done [] "2025.4").2 "2025.4").2 := by
  decide

/-- Claim C5 (amended): provided at least one of backport/<v>,
backport/<v>-pending, backport/<v>-done is present initially,
replace_backport_label_with_done removes the requested (else the pending)
label and adds the done label, and after two consecutive calls exactly one
of the three labels is present, namely backport/<v>-done; when none of the
three is present the call reports failure and changes nothing. -/
theorem c5_replace_done_idempotent (L : List String) (v : String)
    (h : requested_label v ∈ L ∨ pending_label v ∈ L ∨ done_label v ∈ L) :
    done_label v ∈
        (replace_backport_label_with_done
          (replace_backport_label_with_done L v).2 v).2 ∧
      requested_label v ∉
        (replace_backport_label_with_done
          (replace_backport_label_with_done L v).2 v).2 ∧
      pending_label v ∉
        (replace_backport_label_with_done
          (replace_backport_label_with_done L v).2 v).2 := by
  have h1 := replace_done_first h
  exact replace_done_second h1.1 h1.2

/-- Claim C5, witness: the amended theorem applied to a PR labelled
backport/2025.4. -/
theorem c5_replace_done_idempotent_witness :
    (requested_label "2025.4" ∈ ["backport/2025.4"] ∨
        pending_label "2025.4" ∈ ["backport/2025.4"] ∨
        done_label "2025.4" ∈ ["backport/2025.4"]) ∧
      (done_label "2025.4" ∈
          (replace_backport_label_with_done
            (replace_backport_label_with_done ["backport/2025.4"] "2025.4").2 "2025.4").2 ∧
        requested_label "2025.4" ∉
          (replace_backport_label_with_done
            (replace_backport_label_with_done ["backport/2025.4"] "2025.4").2 "2025.4").2 ∧
        pending_label "2025.4" ∉
          (replace_backport_label_with_done
            (replace_backport_label_with_done ["backport/2025.4"] "2025.4").2 "2025.4").2) :=
  ⟨by decide, c5_replace_done_idempotent ["backport/2025.4"] "2025.4" (by decide)⟩

/-! ## Claim C2: skip and mark done when a commit is already on the branch -/

/-- Claim C2: when some commit of the backport is already present on the
target branch, matched in the first 100 commits of the branch history by
exact SHA or by equality of the first commit-message lines, backport
creates no tracking PR and the label state of the (original PR, version)
pair transitions to backport/<version>-done. -/
theorem c2_backport_skips_and_marks_done (env : BackportEnv) (pr_number : Nat)
    (pr_title : String) (parent_pr_labels : List String) (version : String)
    (commits : List Commit) (backport_base_branch : String)
    (branch_commits : List Commit) (git_fail cherry_pick_conflict jira_failed : Bool)
    (remaining_backport_labels original_pr_labels : List String)
    (c bc : Commit) (hc : c ∈ commits) (hbc : bc ∈ branch_commits.take 100)
    (hmatch : bc.sha = c.sha ∨ first_line bc.message = first_line c.message)
    (hlab : requested_label version ∈ original_pr_labels ∨
      pending_label version ∈ original_pr_labels ∨
      done_label version ∈ original_pr_labels) :
    (backport env pr_number pr_title parent_pr_labels version commits
        backport_base_branch branch_commits git_fail cherry_pick_conflict
        jira_failed remaining_backport_labels original_pr_labels).1 = none ∧
      done_label version ∈
        (backport env pr_number pr_title parent_pr_labels version commits
          backport_base_branch branch_commits git_fail cherry_pick_conflict
          jira_failed remaining_backport_labels original_pr_labels).2 := by
  have hin : is_commit_in_branch c branch_commits = true := by
    unfold is_commit_in_branch
    refine List.any_eq_true.mpr ⟨bc, hbc, ?_⟩
    rcases hmatch with h | h
    · simp [h]
    · simp [h, str_in_self]
  have hany : commits.any (fun commit => is_commit_in_branch commit branch_commits) = true :=
    List.any_eq_true.mpr ⟨c, hc, hin⟩
  unfold backport
  rw [if_pos hany]
  exact ⟨rfl, (replace_done_first hlab).1⟩

/-- Claim C2, witness: a single-commit backport whose commit title is
already the title of the head commit of the target branch, on a PR labelled
backport/2025.4. -/
theorem c2_backport_skips_and_marks_done_witness :
    ((⟨"s1", "Fix bug"⟩ : Commit) ∈ [(⟨"s1", "Fix bug"⟩ : Commit)] ∧
        (⟨"zz", "Fix bug"⟩ : Commit) ∈ ([⟨"zz", "Fix bug"⟩] : List Commit).take 100 ∧
        (first_line "Fix bug" = first_line "Fix bug") ∧
        requested_label "2025.4" ∈ ["backport/2025.4"]) ∧
      ((backport ⟨"scylladb/scylladb", [], true⟩ 100 "Fix bug" ["backport/2025.4"]
          "2025.4" [⟨"s1", "Fix bug"⟩] "branch-2025.4" [⟨"zz", "Fix bug"⟩]
          false false false [] ["backport/2025.4"]).1 = none ∧
        done_label "2025.4" ∈
          (backport ⟨"scylladb/scylladb", [], true⟩ 100 "Fix bug" ["backport/2025.4"]
            "2025.4" [⟨"s1", "Fix bug"⟩] "branch-2025.4" [⟨"zz", "Fix bug"⟩]
            false false false [] ["backport/2025.4"]).2) :=
  ⟨⟨by decide, by decide, rfl, by decide⟩,
    c2_backport_skips_and_marks_done ⟨"scylladb/scylladb", [], true⟩ 100 "Fix bug"
      ["backport/2025.4"] "2025.4" [⟨"s1", "Fix bug"⟩] "branch-2025.4"
      [⟨"zz", "Fix bug"⟩] false false false [] ["backport/2025.4"]
      ⟨"s1", "Fix bug"⟩ ⟨"zz", "Fix bug"⟩ (by decide) (by decide)
      (Or.inr rfl) (by decide)⟩

/-! ## Helper lemmas about the pending-label conversion loop -/

theorem convert_labels_cons (S : List String) (l : String) (ls : List String) :
    convert_labels_to_pending S (l :: ls) =
      convert_labels_to_pending (convert_label_to_pending S l) ls := rfl

theorem requested_ne_pending_shape {v : String} (hv : ends_with_digit v = true)
    (x : String) : requested_label v ≠ x ++ "-pending" := by
  obtain ⟨c, hc, hdig⟩ := getLast_requested hv
  refine ne_of_getLast hc ?_ (digit_ne_g hdig)
  rw [str_toList_append, List.getLast?_append_of_ne_nil _ (by decide)]
  decide

theorem convert_preserve {v : String} (hdv : ends_with_digit v = true) :
    ∀ (ws : List String) (S : List String),
      (∀ w ∈ ws, ends_with_digit w = true) →
      requested_label v ∉ S → pending_label v ∈ S →
      requested_label v ∉ convert_labels_to_pending S (ws.map requested_label) ∧
        pending_label v ∈ convert_labels_to_pending S (ws.map requested_label) := by
  intro ws
  induction ws with
  | nil => intro S _ h1 h2; exact ⟨h1, h2⟩
  | cons w ws ih =>
    intro S hd h1 h2
    rw [List.map_cons, convert_labels_cons]
    have hdw := hd w (List.mem_cons_self w ws)
    have hstep1 : requested_label v ∉ convert_label_to_pending S (requested_label w) := by
      unfold convert_label_to_pending
      split_ifs with hw
      · intro hmem
        rcases mem_add_label.mp hmem with hmem | hmem
        · exact h1 (mem_remove_label.mp hmem).1
        · exact requested_ne_pending_shape hdv _ hmem
      · exact h1
    have hstep2 : pending_label v ∈ convert_label_to_pending S (requested_label w) := by
      unfold convert_label_to_pending
      split_ifs with hw
      · exact mem_add_label.mpr (Or.inl (mem_remove_label.mpr
          ⟨h2, (requested_ne_pending_of_digit hdw).symm⟩))
      · exact h2
    exact ih _ (fun u hu => hd u (List.mem_cons_of_mem _ hu)) hstep1 hstep2

theorem convert_fold_spec :
    ∀ (rest : List String) (L : List String),
      (∀ w ∈ rest, ends_with_digit w = true) →
      (∀ w ∈ rest, py_replace (requested_label w) "backport/" "" = w) →
      ∀ v ∈ rest, requested_label v ∈ L →
        requested_label v ∉ convert_labels_to_pending L (rest.map requested_label) ∧
          pending_label v ∈ convert_labels_to_pending L (rest.map requested_label) := by
  intro rest
  induction rest with
  | nil => intro L _ _ v hv; cases hv
  | cons w ws ih =>
    intro L hd hr v hv hvL
    have hdw := hd w (List.mem_cons_self w ws)
    have hrw := hr w (List.mem_cons_self w ws)
    rw [List.map_cons, convert_labels_cons]
    by_cases hvw : v = w
    · subst hvw
      have hstep : convert_label_to_pending L (requested_label v) =
          add_label (remove_label L (requested_label v)) (pending_label v) := by
        unfold convert_label_to_pending
        rw [if_pos hvL, hrw]
        rfl
      rw [hstep]
      have h1 : requested_label v ∉
          add_label (remove_label L (requested_label v)) (pending_label v) := by
        intro hmem
        rcases mem_add_label.mp hmem with hmem | hmem
        · exact (mem_remove_label.mp hmem).2 rfl
        · exact requested_ne_pending v hmem
      have h2 : pending_label v ∈
          add_label (remove_label L (requested_label v)) (pending_label v) :=
        mem_add_label.mpr (Or.inr rfl)
      exact convert_preserve hdw ws _ (fun u hu => hd u (List.mem_cons_of_mem _ hu)) h1 h2
    · have hv2 : v ∈ ws := by
        rcases List.mem_cons.mp hv with h | h
        · exact absurd h hvw
        · exact h
      have hvL2 : requested_label v ∈ convert_label_to_pending L (requested_label w) := by
        unfold convert_label_to_pending
        split_ifs with hw
        · exact mem_add_label.mpr (Or.inl (mem_remove_label.mpr
            ⟨hvL, fun he => hvw (requested_label_inj he)⟩))
        · exact hvL
      exact ih _ (fun u hu => hd u (List.mem_cons_of_mem _ hu))
        (fun u hu => hr u (List.mem_cons_of_mem _ hu)) v hv2 hvL2

/-! ## Helper lemmas about create_pull_request and backport -/

theorem create_pull_request_target (env : BackportEnv) (nb bb : String)
    (pl : List String) (t : String) (d jf : Bool) (rem : List String) (bv : String) :
    (create_pull_request env nb bb pl t d jf rem bv).target_branch = bb := rfl

theorem create_pull_request_mem_remaining (env : BackportEnv) (nb bb : String)
    (pl : List String) (t : String) (d jf : Bool) (rem : List String) (bv : String)
    {l : String} (hl : l ∈ rem) :
    l ∈ (create_pull_request env nb bb pl t d jf rem bv).labels :=
  List.mem_append_right _ hl

theorem create_pull_request_jira_label (env : BackportEnv) (nb bb : String)
    (pl : List String) (t : String) (d : Bool) (rem : List String) (bv : String) :
    JIRA_FAILURE_LABEL ∈ (create_pull_request env nb bb pl t d true rem bv).labels := by
  simp [create_pull_request]

theorem backport_success (env : BackportEnv) (pr_number : Nat) (pr_title : String)
    (parent_pr_labels : List String) (version : String) (commits : List Commit)
    (bb : String) (bc : List Commit) (conflict jf : Bool) (rem orig : List String)
    (hcommit : commits.any (fun commit => is_commit_in_branch commit bc) = false) :
    backport env pr_number pr_title parent_pr_labels version commits bb bc false
        conflict jf rem orig =
      (some (create_pull_request env
          ("backport/" ++ toString pr_number ++ "/to-" ++ version) bb parent_pr_labels
          ("[Backport " ++ version ++ "] " ++ extract_original_title pr_title)
          conflict jf rem version),
        orig) := by
  unfold backport
  rw [hcommit]
  rfl

theorem backport_some_eq (env : BackportEnv) (pr_number : Nat) (pr_title : String)
    (parent_pr_labels : List String) (version : String) (commits : List Commit)
    (bb : String) (bc : List Commit) (gf conflict jf : Bool) (rem orig : List String)
    (bp : TrackingPR) (L : List String)
    (h : backport env pr_number pr_title parent_pr_labels version commits bb bc gf
        conflict jf rem orig = (some bp, L)) :
    bp = create_pull_request env
        ("backport/" ++ toString pr_number ++ "/to-" ++ version) bb parent_pr_labels
        ("[Backport " ++ version ++ "] " ++ extract_original_title pr_title)
        conflict jf rem version := by
  unfold backport at h
  split_ifs at h with h1 h2
  · simp at h
  · simp at h
  · rw [Prod.mk.injEq] at h
    exact (Option.some.inj h.1).symm

/-! ## Helper lemmas about the Jira mapping pass -/

theorem build_version_mapping_mem (store : JiraStore) (enabled : Bool)
    (version title : String) :
    ∀ (keys : List String) (key : String), key ∈ keys → enabled = true →
      create_jira_sub_issue store key version title = none →
      ((version, key, key) ∈
          (build_version_jira_mapping store enabled version title keys).1 ∧
        (version, key) ∈
          (build_version_jira_mapping store enabled version title keys).2.1 ∧
        (key, version) ∈
          (build_version_jira_mapping store enabled version title keys).2.2) := by
  intro keys
  induction keys with
  | nil => intro key hk; cases hk
  | cons a as ih =>
    intro key hk hen hfail
    subst hen
    rcases List.mem_cons.mp hk with rfl | hk
    · unfold build_version_jira_mapping
      rw [if_pos rfl, hfail]
      exact ⟨List.mem_cons_self _ _, List.mem_cons_self _ _, List.mem_cons_self _ _⟩
    · obtain ⟨h1, h2, h3⟩ := ih key hk rfl hfail
      unfold build_version_jira_mapping
      rw [if_pos rfl]
      cases hca : create_jira_sub_issue store a version title with
      | some s =>
        exact ⟨List.mem_cons_of_mem _ h1, h2, h3⟩
      | none =>
        exact ⟨List.mem_cons_of_mem _ h1, List.mem_cons_of_mem _ h2,
          List.mem_cons_of_mem _ h3⟩

theorem build_jira_mappings_mem (store : JiraStore) (enabled : Bool) (title : String) :
    ∀ (versions keys : List String) (v key : String), v ∈ versions → key ∈ keys →
      enabled = true → create_jira_sub_issue store key v title = none →
      ((v, key, key) ∈ (build_jira_mappings store enabled title versions keys).1 ∧
        (v, key) ∈ (build_jira_mappings store enabled title versions keys).2.1 ∧
        (key, v) ∈ (build_jira_mappings store enabled title versions keys).2.2) := by
  intro versions
  induction versions with
  | nil => intro keys v key hv; cases hv
  | cons w ws ih =>
    intro keys v key hv hk hen hfail
    rcases List.mem_cons.mp hv with rfl | hv
    · obtain ⟨h1, h2, h3⟩ := build_version_mapping_mem store enabled v title keys key
        hk hen hfail
      exact ⟨List.mem_append_left _ h1, List.mem_append_left _ h2,
        List.mem_append_left _ h3⟩
    · obtain ⟨h1, h2, h3⟩ := ih keys v key hv hk hen hfail
      exact ⟨List.mem_append_right _ h1, List.mem_append_right _ h2,
        List.mem_append_right _ h3⟩

/-! ## Unfolding lemma for the chained mode of backport_with_jira -/

theorem backport_with_jira_chained (env : BwjEnv) (pr_number : Nat) (pr_title : String)
    (pr_labels : List String) (versions : List String) (commits : List Commit)
    (body_jira_keys : List String) (main_jira_key : Option String)
    (highest_version : String) (rest_versions : List String)
    (all_jira_keys : List String)
    (built : List (String × String × String) × List (String × String) ×
      List (String × String))
    (remaining : List String)
    (hsort : sort_versions_descending versions = some (highest_version :: rest_versions))
    (hpar : "parallel_backport" ∉ pr_labels)
    (hex : env.existing_backport_pr highest_version = false)
    (hkeys : all_jira_keys =
      (if body_jira_keys.isEmpty then
        (match main_jira_key with
         | some k => [k]
         | none => [])
       else body_jira_keys))
    (hbuilt : built = build_jira_mappings env.store env.jira_enabled
      (extract_original_title pr_title) (highest_version :: rest_versions) all_jira_keys)
    (hrem : remaining = rest_versions.map requested_label) :
    backport_with_jira env pr_number pr_title pr_labels versions commits body_jira_keys
        main_jira_key =
      (match backport env.core pr_number pr_title pr_labels highest_version commits
          (get_branch_name env.repo_name highest_version)
          (env.branch_commits (get_branch_name env.repo_name highest_version))
          (env.git_fail highest_version) (env.cherry_pick_conflict highest_version)
          (all_jira_keys.any fun k => decide ((highest_version, k) ∈ built.2.1))
          remaining pr_labels with
       | (some bp, labels1) =>
         some ⟨[bp], false,
           (if remaining.isEmpty then labels1
            else convert_labels_to_pending labels1 remaining),
           built.1, built.2.1, built.2.2⟩
       | (none, labels1) => some ⟨[], false, labels1, built.1, built.2.1, built.2.2⟩) := by
  subst hkeys hbuilt hrem
  simp only [backport_with_jira, hsort]
  rw [if_neg hpar]
  simp only [hex, Bool.false_eq_true, if_false]

/-! ## Claim C1: chained mode creates one tracking PR and converts labels -/

/-- Claim C1: in default chained mode (no parallel_backport label) with two
or more requested versions, on a fresh state (no existing tracking PR for
the highest version, no commit already on its target branch, git
succeeding), backport_with_jira creates exactly one tracking PR, targeting
the branch of the highest-sorted version; every other requested version v
has its backport/<v> label removed from the original PR and
backport/<v>-pending added there, while backport/<v> is carried on the new
tracking PR. -/
theorem c1_chained_one_pr_and_pending_labels (env : BwjEnv) (pr_number : Nat)
    (pr_title : String) (pr_labels : List String) (versions : List String)
    (commits : List Commit) (body_jira_keys : List String)
    (main_jira_key : Option String) (highest_version : String)
    (rest_versions : List String)
    (hsort : sort_versions_descending versions = some (highest_version :: rest_versions))
    (hrest : rest_versions ≠ [])
    (hpar : "parallel_backport" ∉ pr_labels)
    (hex : env.existing_backport_pr highest_version = false)
    (hcommit : commits.any (fun commit => is_commit_in_branch commit
      (env.branch_commits (get_branch_name env.repo_name highest_version))) = false)
    (hgit : env.git_fail highest_version = false)
    (hlabels : ∀ v ∈ rest_versions, requested_label v ∈ pr_labels)
    (hdigit : ∀ v ∈ rest_versions, ends_with_digit v = true)
    (hrepl : ∀ v ∈ rest_versions, py_replace (requested_label v) "backport/" "" = v) :
    ∃ (r : BwjResult) (bp : TrackingPR),
      backport_with_jira env pr_number pr_title pr_labels versions commits
          body_jira_keys main_jira_key = some r ∧
        r.created_prs = [bp] ∧
        bp.target_branch = get_branch_name env.repo_name highest_version ∧
        (∀ v ∈ rest_versions, requested_label v ∈ bp.labels) ∧
        (∀ v ∈ rest_versions,
          requested_label v ∉ r.original_pr_labels ∧
            pending_label v ∈ r.original_pr_labels) := by
  rw [backport_with_jira_chained env pr_number pr_title pr_labels versions commits
    body_jira_keys main_jira_key highest_version rest_versions _ _ _ hsort hpar hex
    rfl rfl rfl]
  rw [hgit, backport_success _ _ _ _ _ _ _ _ _ _ _ _ hcommit]
  have hne : (rest_versions.map requested_label).isEmpty = false := by
    cases rest_versions with
    | nil => exact absurd rfl hrest
    | cons a as => rfl
  refine ⟨_, _, rfl, rfl, rfl, ?_, ?_⟩
  · intro v hv
    exact create_pull_request_mem_remaining _ _ _ _ _ _ _ _ _
      (List.mem_map_of_mem requested_label hv)
  · intro v hv
    show requested_label v ∉
        (if (rest_versions.map requested_label).isEmpty then pr_labels
         else convert_labels_to_pending pr_labels (rest_versions.map requested_label)) ∧
      pending_label v ∈
        (if (rest_versions.map requested_label).isEmpty then pr_labels
         else convert_labels_to_pending pr_labels (rest_versions.map requested_label))
    rw [hne]
    simp only [Bool.false_eq_true, if_false]
    exact convert_fold_spec rest_versions pr_labels hdigit hrepl v hv (hlabels v hv)

/-- Claim C1, witness: PR 100 labelled backport/2025.4 and backport/2025.3
in chained mode on a fresh state: one tracking PR targeting branch-2025.4,
carrying backport/2025.3, while the original PR gets
backport/2025.3-pending. -/
theorem c1_chained_one_pr_and_pending_labels_witness :
    ∃ (r : BwjResult) (bp : TrackingPR),
      backport_with_jira demo_env 100 "Fix bug" ["backport/2025.4", "backport/2025.3"]
          ["2025.4", "2025.3"] [⟨"sha1", "Fix bug"⟩] ["K-1"] none = some r ∧
        r.created_prs = [bp] ∧
        bp.target_branch = get_branch_name demo_env.repo_name "2025.4" ∧
        (∀ v ∈ ["2025.3"], requested_label v ∈ bp.labels) ∧
        (∀ v ∈ ["2025.3"],
          requested_label v ∉ r.original_pr_labels ∧
            pending_label v ∈ r.original_pr_labels) :=
  c1_chained_one_pr_and_pending_labels demo_env 100 "Fix bug"
    ["backport/2025.4", "backport/2025.3"] ["2025.4", "2025.3"]
    [⟨"sha1", "Fix bug"⟩] ["K-1"] none "2025.4" ["2025.3"]
    (by decide) (by decide) (by decide) (by decide) (by decide) (by decide)
    (by decide) (by decide) (by decide)

/-! ## Claim C7: Jira sub-issue creation failure handling -/

/-- Claim C7, counterexample to the claim as stated: in chained mode with
versions 2025.4 and 2025.3 where sub-issue creation fails for the pair
(K-1, 2025.3), the run records the failure and falls back to the parent key,
but the one tracking PR it creates is not tagged with
jira-sub-issue-creation-failed — no tagged tracking PR exists for this
failure (the PR for 2025.3 itself will only be created later by chain
continuation, which passes jira_failed=False). -/
theorem c7_counterexample :
    create_jira_sub_issue demo_store "K-1" "2025.3"
        (extract_original_title "Fix bug") = none ∧
      (backport_with_jira demo_env 100 "Fix bug"
          ["backport/2025.4", "backport/2025.3"] ["2025.4", "2025.3"]
          [⟨"sha1", "Fix bug"⟩] ["K-1"] none).map
          (fun r => (r.created_prs.length,
            r.created_prs.all (fun bp => !(bp.labels.contains JIRA_FAILURE_LABEL)),
            r.jira_failures)) =
        some (1, true, [("2025.3", "K-1")]) :=
  ⟨by decide, by decide⟩

/-- Claim C7 (amended): during the initial chained backport pass, for every
(parent key, version) pair whose sub-issue creation fails, the parent key
itself is used in place of a sub-task key in the issue-key mapping and a
comment reporting the failure is posted on the parent issue; the tracking
PR created by this pass is tagged with jira-sub-issue-creation-failed when
the failing version is the one it covers (the highest).  Failures for lower
versions do not tag any PR, and chain continuation never tags. -/
theorem c7_jira_failure_fallback (env : BwjEnv) (pr_number : Nat) (pr_title : String)
    (pr_labels : List String) (versions : List String) (commits : List Commit)
    (body_jira_keys : List String) (main_jira_key : Option String)
    (highest_version : String) (rest_versions : List String) (parent_key v : String)
    (hsort : sort_versions_descending versions = some (highest_version :: rest_versions))
    (hpar : "parallel_backport" ∉ pr_labels)
    (hex : env.existing_backport_pr highest_version = false)
    (hen : env.jira_enabled = true)
    (hkeys : body_jira_keys.isEmpty = false)
    (hkey : parent_key ∈ body_jira_keys)
    (hv : v ∈ highest_version :: rest_versions)
    (hfail : create_jira_sub_issue env.store parent_key v
      (extract_original_title pr_title) = none) :
    ∃ r : BwjResult,
      backport_with_jira env pr_number pr_title pr_labels versions commits
          body_jira_keys main_jira_key = some r ∧
        (v, parent_key, parent_key) ∈ r.version_jira_mapping ∧
        (parent_key, v) ∈ r.reported_failures ∧
        (v = highest_version →
          ∀ bp ∈ r.created_prs, JIRA_FAILURE_LABEL ∈ bp.labels) := by
  rw [backport_with_jira_chained env pr_number pr_title pr_labels versions commits
    body_jira_keys main_jira_key highest_version rest_versions _ _ _ hsort hpar hex
    rfl rfl rfl]
  simp only [hkeys, Bool.false_eq_true, if_false]
  obtain ⟨hm1, hm2, hm3⟩ := build_jira_mappings_mem env.store env.jira_enabled
    (extract_original_title pr_title) (highest_version :: rest_versions) body_jira_keys
    v parent_key hv hkey hen hfail
  cases hb : backport env.core pr_number pr_title pr_labels highest_version commits
      (get_branch_name env.repo_name highest_version)
      (env.branch_commits (get_branch_name env.repo_name highest_version))
      (env.git_fail highest_version) (env.cherry_pick_conflict highest_version)
      (body_jira_keys.any fun k => decide ((highest_version, k) ∈
        (build_jira_mappings env.store env.jira_enabled
          (extract_original_title pr_title) (highest_version :: rest_versions)
          body_jira_keys).2.1))
      (rest_versions.map requested_label) pr_labels with
  | mk o labels1 =>
    cases o with
    | none =>
      refine ⟨_, rfl, hm1, hm3, ?_⟩
      intro _ bp hbp
      simp at hbp
    | some bp0 =>
      refine ⟨_, rfl, hm1, hm3, ?_⟩
      intro hveq bp hbp
      subst hveq
      have hjf : (body_jira_keys.any fun k => decide ((v, k) ∈
          (build_jira_mappings env.store env.jira_enabled
            (extract_original_title pr_title) (v :: rest_versions)
            body_jira_keys).2.1)) = true :=
        List.any_eq_true.mpr ⟨parent_key, hkey, decide_eq_true hm2⟩
      have hbp0 := backport_some_eq _ _ _ _ _ _ _ _ _ _ _ _ _ _ _ hb
      rw [hjf] at hbp0
      have hbp1 : bp = bp0 := by
        simpa using hbp
      rw [hbp1, hbp0]
      exact create_pull_request_jira_label _ _ _ _ _ _ _ _

/-- Claim C7, witness: a single-version chained run where sub-issue creation
fails for (K-1, 2025.3): the mapping falls back to K-1, the failure comment
is recorded, and the created tracking PR is tagged. -/
theorem c7_jira_failure_fallback_witness :
    ∃ r : BwjResult,
      backport_with_jira demo_env 100 "Fix bug" ["backport/2025.3"] ["2025.3"]
          [⟨"sha1", "Fix bug"⟩] ["K-1"] none = some r ∧
        ("2025.3", "K-1", "K-1") ∈ r.version_jira_mapping ∧
        ("K-1", "2025.3") ∈ r.reported_failures ∧
        ("2025.3" = "2025.3" →
          ∀ bp ∈ r.created_prs, JIRA_FAILURE_LABEL ∈ bp.labels) :=
  c7_jira_failure_fallback demo_env 100 "Fix bug" ["backport/2025.3"] ["2025.3"]
    [⟨"sha1", "Fix bug"⟩] ["K-1"] none "2025.3" [] "K-1" "2025.3"
    (by decide) (by decide) (by decide) (by decide) (by decide) (by decide)
    (by decide) (by decide)
